import Mathlib

/-!
Shallow embedding of the element-classification and extraction-normalization
core of the pdf-extractor backend (src/backend), together with proofs about
the properties its specification states.

Python floats are embedded as exact rationals (`Rat`); Python strings as
Lean `String`/`List Char`; Python `re` searches over the fixed patterns of
the source are embedded as executable matchers with `re.search` semantics
(a pattern matches somewhere in the text); code that can raise is embedded
with `Option`/`Except`, where `none`/`.error` is an uncaught exception.
-/

set_option maxHeartbeats 1600000
set_option maxRecDepth 4000
set_option linter.unusedVariables false

namespace PdfExtract

/-! ## Python string primitives -/

/-- Python whitespace class `\s` (ASCII part): space, tab, newline, CR, VT, FF. -/
def isPySpace (c : Char) : Bool :=
  c = ' ' || c = '\t' || c = '\n' || c = '\r' || c = '\x0b' || c = '\x0c'

/-- Python regex digit class `\d` (ASCII part). -/
def isPyDigit (c : Char) : Bool := '0' ≤ c && c ≤ '9'

/-- ASCII letter, the class `[a-zA-Z]`. -/
def isAsciiAlpha (c : Char) : Bool :=
  ('a' ≤ c && c ≤ 'z') || ('A' ≤ c && c ≤ 'Z')

/-- Python regex word character `\w` (ASCII part), used for `\b` boundaries. -/
def isWordChar (c : Char) : Bool := isAsciiAlpha c || isPyDigit c || c = '_'

/-- Python `str.strip()` on a character list. -/
def stripChars (l : List Char) : List Char :=
  ((l.dropWhile isPySpace).reverse.dropWhile isPySpace).reverse

/-- Python `str.strip()`. -/
def pyStrip (s : String) : String := String.mk (stripChars s.toList)

/-- Python `str.lower()` (ASCII range, all texts handled here are ASCII-cased). -/
def pyLower (s : String) : String := String.mk (s.toList.map Char.toLower)

/-- Substring test, Python `needle in haystack` on character lists. -/
def listContainsSub (needle haystack : List Char) : Bool :=
  haystack.tails.any (fun t => needle.isPrefixOf t)

/-- Python `haystack.__contains__(needle)` for strings. -/
def pyContains (haystack needle : String) : Bool :=
  listContainsSub needle.toList haystack.toList

/-- Python `s.startswith(pre)`. -/
def pyStartsWith (s pre : String) : Bool :=
  pre.toList.isPrefixOf s.toList

/-- Python `s.startswith(tuple)`. -/
def pyStartsWithAny (s : String) (pres : List String) : Bool :=
  pres.any (fun p => pyStartsWith s p)

/-- Python `sep.join(parts)`. -/
def joinSep (sep : String) : List String → String
  | [] => ""
  | [x] => x
  | x :: xs => x ++ sep ++ joinSep sep xs

/-- Python `str.isupper()`: at least one cased character and no lowercase one. -/
def pyIsUpper (s : String) : Bool :=
  s.toList.any (fun c => c.isUpper || c.isLower) && s.toList.all (fun c => !c.isLower)

/-- Decimal value of a digit run. -/
def digitsToNat (ds : List Char) : Nat :=
  ds.foldl (fun n c => n * 10 + (c.toNat - '0'.toNat)) 0

/-- Python `int(s)` on a decimal string: strip whitespace, optional sign,
at least one digit; `none` embeds the `ValueError` that `int` raises otherwise. -/
def pyInt (s : List Char) : Option Int :=
  let t := stripChars s
  match t with
  | '-' :: ds => if ds ≠ [] && ds.all isPyDigit then some (-(digitsToNat ds : Int)) else none
  | '+' :: ds => if ds ≠ [] && ds.all isPyDigit then some ((digitsToNat ds : Int)) else none
  | ds => if ds ≠ [] && ds.all isPyDigit then some ((digitsToNat ds : Int)) else none

/-- Python `str.replace(pat, repl)` for a one-character pattern, the only form
the source uses (the symbol → LaTeX substitution table). -/
def replaceChar (c : Char) (repl : List Char) : List Char → List Char
  | [] => []
  | x :: xs => if x = c then repl ++ replaceChar c repl xs else x :: replaceChar c repl xs

/-- Number of newline characters in a string; with newline-free cells this is
exactly the number of emitted table rows (each row ends in one `\n`). -/
def nlCount (s : String) : Nat := s.toList.count '\n'

/-! ## Regex matchers for the fixed patterns of the source

Each `matchAt…` function decides whether its pattern matches at the start of
the given character list; `re.search` is then `tails.any`, i.e. a match at
some start position. -/

/-- Close a `\$.*?\$` match: a `'$'` is found before any newline. -/
def closesOnLine : List Char → Bool
  | [] => false
  | '$' :: _ => true
  | '\n' :: _ => false
  | _ :: rest => closesOnLine rest

/-- `re.search(r'\$.*?\$', text)`: two dollar signs with no newline between. -/
def hasDollarPair (s : List Char) : Bool :=
  s.tails.any (fun t =>
    match t with
    | '$' :: rest => closesOnLine rest
    | _ => false)

/-- Close a `\$\$.*?\$\$` match: `"$$"` occurs before any newline. -/
def doubleClosesOnLine : List Char → Bool
  | '$' :: '$' :: _ => true
  | '\n' :: _ => false
  | _ :: rest => doubleClosesOnLine rest
  | [] => false

/-- `re.search(r'\$\$.*?\$\$', text)`. -/
def hasDoubleDollarPair (s : List Char) : Bool :=
  s.tails.any (fun t =>
    match t with
    | '$' :: '$' :: rest => doubleClosesOnLine rest
    | _ => false)

/-- A `'\x7d'` (closing brace) occurs before any newline, closing `\{.*?\}`. -/
def braceClosesOnLine : List Char → Bool
  | [] => false
  | '\x7d' :: _ => true
  | '\n' :: _ => false
  | _ :: rest => braceClosesOnLine rest

/-- `re.search(r'\\[a-zA-Z]+\{.*?\}', text)`: a backslash LaTeX command with a
braced argument. -/
def containsBackslashCmd (s : List Char) : Bool :=
  s.tails.any (fun t =>
    match t with
    | '\\' :: rest =>
      !(rest.takeWhile isAsciiAlpha).isEmpty &&
        (match rest.dropWhile isAsciiAlpha with
         | '\x7b' :: rest2 => braceClosesOnLine rest2
         | _ => false)
    | _ => false)

/-- The mathematical symbol class `[∑∏∫∂∇∞±≤≥≠≈∝∈∉⊂⊃∪∩]`. -/
def isMathSymbol (c : Char) : Bool :=
  c ∈ ['∑', '∏', '∫', '∂', '∇', '∞', '±', '≤', '≥', '≠', '≈', '∝', '∈', '∉', '⊂', '⊃', '∪', '∩']

/-- The Greek letter class `[α-ωΑ-Ω]` (by code point range, as in the regex). -/
def isGreekChar (c : Char) : Bool :=
  ('α' ≤ c && c ≤ 'ω') || ('Α' ≤ c && c ≤ 'Ω')

/-- Match `\d+\s*[+\-*/=]\s*\d+` at the start of the list. -/
def matchAtArith (s : List Char) : Bool :=
  !(s.takeWhile isPyDigit).isEmpty &&
    (match (s.dropWhile isPyDigit).dropWhile isPySpace with
     | op :: r2 =>
       (op ∈ ['+', '-', '*', '/', '=']) &&
         !((r2.dropWhile isPySpace).takeWhile isPyDigit).isEmpty
     | [] => false)

/-- Match `[a-zA-Z]\s*=\s*[^,;.]+` at the start of the list.  After the `'='`,
`\s*[^,;.]+` succeeds exactly when a next character exists and is not one of
`,;.` (whitespace itself is in `[^,;.]`, so backtracking makes any non-empty
remainder whose head is not in `,;.` match). -/
def matchAtVarAssign (s : List Char) : Bool :=
  match s with
  | c :: rest =>
    isAsciiAlpha c &&
      (match rest.dropWhile isPySpace with
       | '=' :: r2 =>
         (match r2 with
          | c2 :: _ => !(c2 ∈ [',', ';', '.'])
          | [] => false)
       | _ => false)
  | [] => false

/-- `re.search` for a pattern with a leading `\b`: try every start position,
carrying the previous character to decide the word boundary. -/
def searchWithBoundary (p : List Char → Bool) : Option Char → List Char → Bool
  | prev, [] =>
    (match prev with | none => true | some c => !isWordChar c) && p []
  | prev, c :: rest =>
    ((match prev with | none => true | some pc => !isWordChar pc) && p (c :: rest)) ||
      searchWithBoundary p (some c) rest

/-- `re.search(r'\b\d+\s*[+\-*/=]\s*\d+', text)`. -/
def searchArith (s : List Char) : Bool := searchWithBoundary matchAtArith none s

/-- `re.search(r'\b[a-zA-Z]\s*=\s*[^,;.]+', text)`. -/
def searchVarAssign (s : List Char) : Bool := searchWithBoundary matchAtVarAssign none s

/-- The character class `[\d\s,\-]` of the bracketed-citation patterns. -/
def isRefChar (c : Char) : Bool := isPyDigit c || isPySpace c || c = ',' || c = '-'

/-- Match `\[[\d\s,\-]+\]` at the start of the list. -/
def matchAtBracketRef (s : List Char) : Bool :=
  match s with
  | '[' :: rest =>
    !(rest.takeWhile isRefChar).isEmpty &&
      (match rest.dropWhile isRefChar with
       | ']' :: _ => true
       | _ => false)
  | _ => false

/-- `re.search(r'\[[\d\s,\-]+\]', text)`. -/
def searchBracketRef (s : List Char) : Bool := s.tails.any matchAtBracketRef

/-- Four consecutive digit characters occur somewhere, the `\d{4}` of the
author-year pattern. -/
def hasFourDigits (s : List Char) : Bool :=
  s.tails.any (fun t =>
    match t with
    | a :: b :: c :: d :: _ => isPyDigit a && isPyDigit b && isPyDigit c && isPyDigit d
    | _ => false)

/-- Match `\([^)]*\d{4}[^)]*\)` at the start of the list: an opening
parenthesis, a parenthesis-free run containing four consecutive digits, and a
closing parenthesis. -/
def matchAtAuthorYear (s : List Char) : Bool :=
  match s with
  | '(' :: rest =>
    (match rest.dropWhile (fun c => c != ')') with
     | ')' :: _ => true
     | _ => false) &&
      hasFourDigits (rest.takeWhile (fun c => c != ')'))
  | _ => false

/-- `re.search(r'\([^)]*\d{4}[^)]*\)', text)`. -/
def searchAuthorYear (s : List Char) : Bool := s.tails.any matchAtAuthorYear

/-- Case-insensitive substring search, `re.search(re.escape-like literal,
text, re.IGNORECASE)` for the literal patterns `et al.`, `ibid.`, `op. cit.`. -/
def containsCI (needle : String) (s : List Char) : Bool :=
  listContainsSub (needle.toList.map Char.toLower) (s.map Char.toLower)

/-- `re.match(r'^\d+\.?\s+[A-Z]', text)`: a leading run of digits, an optional
dot, at least one whitespace character, then an uppercase ASCII letter. -/
def matchNumberedSection (s : List Char) : Bool :=
  !(s.takeWhile isPyDigit).isEmpty &&
    (let r1 := s.dropWhile isPyDigit
     let r2 := match r1 with
       | '.' :: t => t
       | _ => r1
     !(r2.takeWhile isPySpace).isEmpty &&
       (match r2.dropWhile isPySpace with
        | c :: _ => 'A' ≤ c && c ≤ 'Z'
        | [] => false))

/-- `re.findall(r'\[([\d\s,\-]+)\]', text)`: every non-overlapping bracketed
run of digits, whitespace, commas and hyphens, captured without the
brackets.  Scanning restarts at the next character rather than after the
closing bracket, which yields the same captures, because `'['` is not in the
class and so no later match can begin inside a captured region. -/
def findBracketRefs : List Char → List (List Char)
  | [] => []
  | c :: rest =>
    if c = '[' then
      match rest.dropWhile isRefChar with
      | ']' :: _ =>
        if (rest.takeWhile isRefChar).isEmpty then findBracketRefs rest
        else rest.takeWhile isRefChar :: findBracketRefs rest
      | _ => findBracketRefs rest
    else findBracketRefs rest

/-- Scanner for `re.findall(r'\(([^)]*\d{4}[^)]*)\)', text)`: at an opening
parenthesis, the candidate inner run extends to the next `')'`; a successful
match (four consecutive digits inside) is captured and scanning resumes
after the closing parenthesis, a failed attempt resumes at the next
character.  `fuel` only bounds the number of scan steps: every step consumes
at least one character, so `s.length` steps always suffice and the `0` case
is never reached from `findAuthorYears`. -/
def findAuthorYearsGo : Nat → List Char → List (List Char)
  | 0, _ => []
  | _, [] => []
  | Nat.succ fuel, c :: rest =>
    if c = '(' then
      match rest.dropWhile (fun c => c != ')') with
      | ')' :: after =>
        if hasFourDigits (rest.takeWhile (fun c => c != ')')) then
          rest.takeWhile (fun c => c != ')') :: findAuthorYearsGo fuel after
        else findAuthorYearsGo fuel rest
      | _ => findAuthorYearsGo fuel rest
    else findAuthorYearsGo fuel rest

/-- `re.findall(r'\(([^)]*\d{4}[^)]*)\)', text)`: every non-overlapping
parenthesized run without inner parentheses that contains four consecutive
digits, captured without the parentheses. -/
def findAuthorYears (s : List Char) : List (List Char) :=
  findAuthorYearsGo s.length s

/-- Close a `\$\$?(.*?)\$\$?` match begun at a single `'$'`: the captured
group runs to the earliest `'$'` with no newline in between. -/
def closeGroup : List Char → Option (List Char)
  | [] => none
  | c :: rest =>
    if c = '$' then some []
    else if c = '\n' then none
    else (closeGroup rest).map (c :: ·)

/-- The first capture of `re.findall(r'\$\$?(.*?)\$\$?', text)`.  At a start
`"$$"`, the lazy group closes at the next `'$'`; if none exists on the line,
the optional second delimiter backtracks and the group is empty, closed by the
second `'$'` itself. -/
def findFirstDollarGroup : List Char → Option (List Char)
  | [] => none
  | c :: rest =>
    if c = '$' then
      match rest with
      | c2 :: rest2 =>
        if c2 = '$' then some ((closeGroup rest2).getD [])
        else
          match closeGroup rest with
          | some g => some g
          | none => findFirstDollarGroup rest
      | [] => none
    else findFirstDollarGroup rest

/-! ## Data model

The unified element/result schema produced by every pipeline, and the
interface of the external PDF engine (PyMuPDF) that the fallback extractors
consume (spec section 6): per page, text blocks made of lines of spans, an
optionally-failing table finder, an optionally-failing image list, the page
rectangle, and the page's plain text. -/

/-- A bounding box as the 4-tuple `(x1, y1, x2, y2)` the engine reports. -/
structure BBox4 where
  x1 : Rat
  y1 : Rat
  x2 : Rat
  y2 : Rat
deriving Repr, DecidableEq, Inhabited

/-- An element's bbox record, `{"x1", "y1", "x2", "y2", "page"}`. -/
structure ElemBBox where
  x1 : Rat
  y1 : Rat
  x2 : Rat
  y2 : Rat
  page : Nat
deriving Repr, DecidableEq, Inhabited

/-- The `image_info` record attached to image elements by the Surya fallback. -/
structure ImageInfo where
  width : Nat
  height : Nat
  colorspace : String
  xref : Nat
  size_bytes : Nat
deriving Repr, DecidableEq, Inhabited

/-- One element of the unified output schema.  The optional fields are the
profile-specific keys some pipelines attach and others leave absent. -/
structure Element where
  id : String
  type : String
  content : String
  bbox : ElemBBox
  confidence : Rat
  latex : Option String := none
  references : Option (List String) := none
  section_type : Option String := none
  language : Option String := none
  table_type : Option String := none
  image_info : Option ImageInfo := none
deriving Repr, DecidableEq, Inhabited

/-- The metadata dictionary of an `ExtractionResult`; fields a pipeline does
not set keep their zero defaults (absent keys of the Python dict). -/
structure Metadata where
  total_pages : Nat := 0
  total_elements : Nat := 0
  by_type : List (String × Nat) := []
  confidence_avg : Rat := 0
  formulas_detected : Nat := 0
  citations_detected : Nat := 0
  tables_detected : Nat := 0
  figures_detected : Nat := 0
  academic_sections : Nat := 0
  languages_detected : List String := []
  features_detected : List String := []
  model_version : String := ""
deriving Repr, DecidableEq, Inhabited

/-- The per-(document, model) extraction result. -/
structure ExtractionResult where
  markdown : String
  elements : List Element
  metadata : Metadata
  success : Bool
  error : Option String := none
deriving Repr, DecidableEq, Inhabited

/-- One span of one line of a text block, as `page.get_text("dict")` reports. -/
structure Span where
  text : String
  size : Rat := 12
deriving Repr, DecidableEq, Inhabited

/-- One line of a text block. -/
structure Line where
  spans : List Span
deriving Repr, DecidableEq, Inhabited

/-- One raw text block; `lines = none` embeds a block dict without a
`"lines"` key (an image block), which every extractor skips. -/
structure Block where
  bbox : BBox4
  lines : Option (List Line)
deriving Repr, DecidableEq, Inhabited

/-- One detected table: its bbox and the cell grid `table.extract()` returns
(first row = headers, spec section 6). -/
structure PTable where
  bbox : BBox4
  cells : List (List String)
deriving Repr, DecidableEq, Inhabited

/-- One embedded image as `page.get_images` / `fitz.Pixmap` exposes it. -/
structure PImage where
  width : Nat
  height : Nat
  colorspace : Option String
  xref : Nat
  size_bytes : Nat
deriving Repr, DecidableEq, Inhabited

/-- The page rectangle. -/
structure PageRect where
  width : Rat
  height : Rat
deriving Repr, DecidableEq, Inhabited

/-- One page as the external engine supplies it.  `find_tables` and
`get_images` may raise inside the engine; `Except Unit` embeds that (the
extractors catch these and continue). -/
structure Page where
  blocks : List Block
  find_tables : Except Unit (List PTable)
  get_images : Except Unit (List PImage)
  rect : PageRect
  text : String
deriving Repr, Inhabited

/-! ## Shared helpers of the duplicated per-pipeline methods

Every pipeline class carries its own identical copy of the `_count_by_type`
dict fold and of the block-text accumulation loops; these helpers embed the
shared bodies once. -/

/-- Lookup `counts.get(t, 0)` on an insertion-ordered association list. -/
def getCount (counts : List (String × Nat)) (t : String) : Nat :=
  match counts.find? (fun p => p.1 == t) with
  | some p => p.2
  | none => 0

/-- Assignment `counts[t] = n` on an insertion-ordered association list:
replace the first binding of `t`, else append (dict insertion order). -/
def setCount : List (String × Nat) → String → Nat → List (String × Nat)
  | [], t, n => [(t, n)]
  | (k, v) :: rest, t, n =>
    if k = t then (t, n) :: rest else (k, v) :: setCount rest t n

/-- The `_count_by_type` body shared verbatim by the Docling, MinerU and
Surya pipeline classes: `counts[t] = counts.get(t, 0) + 1` per element. -/
def countByTypeFold (types : List String) : List (String × Nat) :=
  types.foldl (fun counts t => setCount counts t (getCount counts t + 1)) []

/-- The eleven element types of the spec's Element schema (section 3),
used to state the type-range claims. -/
def elevenTypes : List String :=
  ["title", "header", "subheader", "text", "list", "caption", "table", "image",
   "equation", "citation", "footer"]

/-- The sum of all counts of a `by_type` dictionary (specification side,
used to state the partition property). -/
def sumCounts (counts : List (String × Nat)) : Nat :=
  (counts.map (fun p => p.2)).sum

/-- One line's text: the concatenation of its span texts. -/
def lineText (l : Line) : String :=
  l.spans.foldl (fun a s => a ++ s.text) ""

/-- The Docling/MinerU fallback block text: lines whose stripped text is
non-empty, each followed by a newline. -/
def linesBlockText (lines : List Line) : String :=
  lines.foldl (fun acc l =>
    let lt := lineText l
    if pyStrip lt ≠ "" then acc ++ lt ++ "\n" else acc) ""

/-- The Surya-fallback / unified-app block text: all span texts concatenated
with no separators. -/
def spansBlockText (lines : List Line) : String :=
  lines.foldl (fun acc l => l.spans.foldl (fun a s => a ++ s.text) acc) ""

/-- Sum of the confidences of a list of elements. -/
def sumConf (elements : List Element) : Rat :=
  (elements.map (fun e => e.confidence)).sum

/-- The empty-but-well-formed failure result every pipeline fallback returns
from its outermost `except` clause: empty markdown and elements, zeroed
metadata, `success=False` and the exception text in `error`. -/
def emptyErrorResult (e : String) : ExtractionResult :=
  { markdown := ""
    elements := []
    metadata := { total_pages := 0, total_elements := 0, by_type := [], confidence_avg := 0 }
    success := false
    error := some e }

/-! ## MinerU pipeline (src/backend/models/mineru_pipeline.py)

The scientific-content detectors and the scientific fallback extractor of
class `MinerUPipeline`.  Leading underscores of the Python method names are
dropped (Lean reserves leading-underscore names for implementation details).
-/

namespace MinerUPipeline

/-- `MinerUPipeline._contains_formula`: the seven formula patterns, each
tried with `re.search`. -/
def contains_formula (text : String) : Bool :=
  let s := text.toList
  hasDollarPair s || hasDoubleDollarPair s || containsBackslashCmd s ||
    s.any isMathSymbol || s.any isGreekChar || searchArith s || searchVarAssign s

/-- The symbol → LaTeX substitution table of `_convert_to_latex`, in source
order. -/
def latexReplacements : List (Char × String) :=
  [('±', "\\pm"), ('≤', "\\leq"), ('≥', "\\geq"), ('≠', "\\neq"), ('≈', "\\approx"),
   ('∝', "\\propto"), ('∈', "\\in"), ('∉', "\\notin"), ('⊂', "\\subset"),
   ('⊃', "\\supset"), ('∪', "\\cup"), ('∩', "\\cap"), ('∑', "\\sum"),
   ('∏', "\\prod"), ('∫', "\\int"), ('∂', "\\partial"), ('∇', "\\nabla"),
   ('∞', "\\infty")]

/-- The replacement loop `for symbol, latex_symbol in replacements.items():
latex = latex.replace(symbol, latex_symbol)`. -/
def applyReplacements : List (Char × String) → List Char → List Char
  | [], s => s
  | p :: ps, s => applyReplacements ps (replaceChar p.1 p.2.toList s)

/-- `MinerUPipeline._convert_to_latex`: apply each single-character
`str.replace` of the substitution table in order. -/
def convert_to_latex (text : String) : String :=
  String.mk (applyReplacements latexReplacements text.toList)

/-- `MinerUPipeline._extract_latex`: the first capture of
`re.findall(r'\$\$?(.*?)\$\$?', text)` when one exists, else the symbol
substitution applied to the whole text. -/
def extract_latex (text : String) : String :=
  match findFirstDollarGroup text.toList with
  | some g => String.mk g
  | none => convert_to_latex text

/-- `MinerUPipeline._contains_citation`: the five citation patterns, each
tried with `re.search(..., re.IGNORECASE)` (case only affects the three
literal patterns). -/
def contains_citation (text : String) : Bool :=
  let s := text.toList
  searchBracketRef s || searchAuthorYear s ||
    containsCI "et al." s || containsCI "ibid." s || containsCI "op. cit." s

/-- The digits of `range(int(start), int(end) + 1)`, each rendered with
`str`. -/
def rangeStrs (a b : Int) : List String :=
  (List.range (b + 1 - a).toNat).map (fun i => toString (a + (i : Int)))

/-- One comma-separated part of a bracketed reference: expand `"1-3"` style
ranges, keep other parts stripped; `none` embeds the `ValueError` of
`int()` / of unpacking a split with more than one hyphen. -/
def refsOfPart (part : List Char) : Option (List String) :=
  let p := stripChars part
  if p.contains '-' then
    match p.splitOn '-' with
    | [st, en] => do
      let a ← pyInt st
      let b ← pyInt en
      pure (rangeStrs a b)
    | _ => none
  else some [String.mk p]

/-- All references contributed by one bracketed capture, in part order. -/
def refsOfBracket (ref : List Char) : Option (List String) :=
  (ref.splitOn ',').foldlM (fun acc part => do
    let rs ← refsOfPart part
    pure (acc ++ rs)) ([] : List String)

/-- `MinerUPipeline._extract_references`: bracketed references (ranges
expanded), then parenthetical author-year captures, deduplicated by
`list(set(...))` — embedded as first-occurrence dedup, since the Python set
order is unspecified and callers use it as a set. -/
def extract_references (text : String) : Option (List String) := do
  let fromBrackets ← (findBracketRefs text.toList).foldlM (fun acc ref => do
    let rs ← refsOfBracket ref
    pure (acc ++ rs)) ([] : List String)
  let authorYear := (findAuthorYears text.toList).map String.mk
  pure ((fromBrackets ++ authorYear).eraseDups)

/-- The fixed academic-section vocabulary of `_is_academic_section`. -/
def academic_sections : List String :=
  ["abstract", "introduction", "methodology", "methods", "results",
   "discussion", "conclusion", "acknowledgments", "references",
   "bibliography", "appendix", "related work", "background",
   "literature review", "experimental setup", "evaluation",
   "future work", "limitations"]

/-- `MinerUPipeline._is_academic_section`: vocabulary hit in the lowered,
stripped text, or a leading numbered-section match on the stripped text. -/
def is_academic_section (text : String) : Bool :=
  let text_lower := pyStrip (pyLower text)
  academic_sections.any (fun sec => pyContains text_lower sec || text_lower == sec) ||
    matchNumberedSection (pyStrip text).toList

/-- The keyword → tag table of `_get_section_type`, in source (dict
insertion) order. -/
def section_types : List (String × String) :=
  [("abstract", "abstract"), ("introduction", "introduction"),
   ("methodology", "methods"), ("methods", "methods"), ("results", "results"),
   ("discussion", "discussion"), ("conclusion", "conclusion"),
   ("acknowledgments", "acknowledgments"), ("references", "references"),
   ("bibliography", "references"), ("appendix", "appendix")]

/-- `MinerUPipeline._get_section_type`. -/
def get_section_type (text : String) : String :=
  let text_lower := pyStrip (pyLower text)
  match section_types.find? (fun p => pyContains text_lower p.1) with
  | some p => p.2
  | none => "other"

/-- `MinerUPipeline._classify_scientific_block`: first-match precedence
formula → citation → academic section → caption → short-text-near-top title
→ text. -/
def classify_scientific_block (text : String) (bbox : BBox4) : String :=
  let text_lower := pyStrip (pyLower text)
  if contains_formula text then "equation"
  else if contains_citation text then "citation"
  else if is_academic_section text then "header"
  else if pyStartsWithAny text_lower ["fig", "figure", "table", "chart"] ||
      pyContains text_lower "figure" || pyContains text_lower "table" then "caption"
  else if text_lower.length < 100 ∧ bbox.y1 < 150 then "title"
  else "text"

/-- `MinerUPipeline._count_by_type`. -/
def count_by_type (elements : List Element) : List (String × Nat) :=
  countByTypeFold (elements.map (fun e => e.type))

/-- `MinerUPipeline._classify_table_type`: scan the lowered headers for the
vocabulary of each table kind, in source order. -/
def classify_table_type (table_data : List (List String)) : String :=
  match table_data with
  | [] => "unknown"
  | headers0 :: _ =>
    let headers := headers0.map pyLower
    let joined := joinSep " " headers
    if ["result", "data", "value", "measurement", "experiment"].any
        (fun w => pyContains joined w) then "results"
    else if ["mean", "std", "p-value", "significance", "correlation"].any
        (fun w => pyContains joined w) then "statistics"
    else if ["method", "approach", "algorithm", "model", "comparison"].any
        (fun w => pyContains joined w) then "comparison"
    else if ["parameter", "setting", "configuration", "hyperparameter"].any
        (fun w => pyContains joined w) then "parameters"
    else "data"

/-- `MinerUPipeline._format_scientific_table`: pipe-format the grid, header
first, a dash separator, then only the rows whose length equals the header
count, with any cell matching the formula detector wrapped as
`$<extract_latex(cell)>$`. -/
def format_scientific_table (table_data : List (List String)) : String :=
  match table_data with
  | [] => ""
  | headers :: rows =>
    if headers.isEmpty then ""
    else
      let md := "| " ++ joinSep " | " headers ++ " |\n" ++
        "| " ++ joinSep " | " (List.replicate headers.length "---") ++ " |\n"
      rows.foldl (fun acc row =>
        if row.length = headers.length then
          acc ++ "| " ++ joinSep " | " (row.map (fun cell =>
            if contains_formula cell then "$" ++ extract_latex cell ++ "$" else cell)) ++ " |\n"
        else acc) md

/-- The markdown fragment `_scientific_fallback_extraction` appends to
`page_content` for one classified block. -/
def blockMarkdown (element_type : String) (block_text : String) : String :=
  if element_type = "equation" then "$$\n" ++ extract_latex block_text ++ "\n$$\n\n"
  else if element_type = "title" then "# " ++ pyStrip block_text ++ "\n\n"
  else if element_type = "header" then "## " ++ pyStrip block_text ++ "\n\n"
  else if element_type = "citation" then "> " ++ pyStrip block_text ++ "\n\n"
  else pyStrip block_text ++ "\n\n"

/-- One block of the scientific fallback loop: skipped when it has no
`"lines"` key or only whitespace text, otherwise classified and turned into
an element plus its markdown fragment.  `none` embeds an uncaught
`ValueError` from `_extract_references` on a citation block. -/
def processBlock (page_num idx : Nat) (b : Block) : Option (Option Element × String) :=
  match b.lines with
  | none => some (none, "")
  | some lines =>
    let block_text := linesBlockText lines
    if pyStrip block_text = "" then some (none, "")
    else
      let element_type := classify_scientific_block block_text b.bbox
      let refs : Option (Option (List String)) :=
        if element_type = "citation" then (extract_references block_text).map some
        else some none
      match refs with
      | none => none
      | some r =>
        some (some
          { id := "page_" ++ toString page_num ++ "_block_" ++ toString idx
            type := element_type
            content := pyStrip block_text
            bbox := ⟨b.bbox.x1, b.bbox.y1, b.bbox.x2, b.bbox.y2, page_num⟩
            confidence := 0.88
            latex := if element_type = "equation" then some (extract_latex block_text) else none
            references := r
            section_type :=
              if element_type = "header" ∧ is_academic_section block_text then
                some (get_section_type block_text)
              else none },
          blockMarkdown element_type block_text)

/-- The enumerated block loop of one page. -/
def processBlocks (page_num : Nat) : List (Nat × Block) → Option (List Element × String)
  | [] => some ([], "")
  | (idx, b) :: rest =>
    match processBlock page_num idx b with
    | none => none
    | some (optEl, frag) =>
      match processBlocks page_num rest with
      | none => none
      | some (els, md) => some (optEl.toList ++ els, frag ++ md)

/-- The table element of the scientific fallback. -/
def tableElement (page_num idx : Nat) (t : PTable) : Element :=
  { id := "page_" ++ toString page_num ++ "_table_" ++ toString idx
    type := "table"
    content := format_scientific_table t.cells
    bbox := ⟨t.bbox.x1, t.bbox.y1, t.bbox.x2, t.bbox.y2, page_num⟩
    confidence := 0.85
    table_type := some (classify_table_type t.cells) }

/-- The enumerated table loop of one page; a table is used only when
`table.extract()` is truthy (non-empty). -/
def processTables (page_num : Nat) : List (Nat × PTable) → List Element × String
  | [] => ([], "")
  | (idx, t) :: rest =>
    if t.cells ≠ [] then
      (tableElement page_num idx t :: (processTables page_num rest).1,
        ("\n" ++ format_scientific_table t.cells ++ "\n\n") ++ (processTables page_num rest).2)
    else processTables page_num rest

/-- One page of the scientific fallback: the `## Page N` header, the block
elements, then the table elements; a raising `page.find_tables()` is
swallowed by the `except: pass`. -/
def processPage (page_num : Nat) (p : Page) : Option (List Element × String) :=
  match processBlocks page_num p.blocks.enum with
  | none => none
  | some (bels, bmd) =>
    let header := "\n\n## Page " ++ toString (page_num + 1) ++ "\n\n"
    match p.find_tables with
    | .error _ => some (bels, header ++ bmd)
    | .ok tbls =>
      some (bels ++ (processTables page_num tbls.enum).1,
        header ++ bmd ++ (processTables page_num tbls.enum).2)

/-- The page loop of the scientific fallback. -/
def processPages : Nat → List Page → Option (List Element × String)
  | _, [] => some ([], "")
  | n, p :: rest =>
    match processPage n p with
    | none => none
    | some (els, md) =>
      match processPages (n + 1) rest with
      | none => none
      | some (els2, md2) => some (els ++ els2, md ++ md2)

/-- `MinerUPipeline._scientific_fallback_extraction`.  The document input is
`Except`: `.error` embeds a raise before/while reading pages (e.g.
`fitz.open` failing), answered by the outer `except` clause with the
empty-but-well-formed failure result.  An internal `ValueError` from
reference extraction in the page loop reaches the same clause; its message
text is runtime-dependent and embedded as the fixed string `"ValueError"`.
When the page loop completes, the source runs `doc.close()`
(mineru_pipeline.py:389) and then builds the metadata dict whose first
entry evaluates `len(doc)` (line 393); on a closed PyMuPDF document this
raises `ValueError('document closed')`, so the `success=True` return is
unreachable and the outer `except` answers with the failure result
carrying that message. -/
def scientific_fallback_extraction (doc : Except String (List Page)) : ExtractionResult :=
  match doc with
  | .error e => emptyErrorResult e
  | .ok pages =>
    match processPages 0 pages with
    | none => emptyErrorResult "ValueError"
    | some _ => emptyErrorResult "document closed"

end MinerUPipeline

/-! ## Docling pipeline (src/backend/models/docling_pipeline.py)

The PyMuPDF fallback extractor of class `DoclingPipeline`. -/

namespace DoclingPipeline

/-- `DoclingPipeline._classify_block`.  The source's third parameter
`all_blocks` is unused by its body and omitted here. -/
def classify_block (text : String) (bbox : BBox4) : String :=
  let text_lower := pyStrip (pyLower text)
  if text_lower.length < 100 ∧ bbox.y1 < 200 then "title"
  else if pyStartsWithAny text_lower
      ["chapter", "section", "introduction", "conclusion", "abstract", "summary"] ∨
      text_lower.length < 50 then "header"
  else "text"

/-- `DoclingPipeline._format_table_markdown`: pipe-format the grid, header
first, a dash separator, then only the rows whose length equals the header
count (mismatched rows are dropped). -/
def format_table_markdown (table_data : List (List String)) : String :=
  match table_data with
  | [] => ""
  | headers :: rows =>
    if headers.isEmpty then ""
    else
      let md := "| " ++ joinSep " | " headers ++ " |\n" ++
        "| " ++ joinSep " | " (List.replicate headers.length "---") ++ " |\n"
      rows.foldl (fun acc row =>
        if row.length = headers.length then
          acc ++ "| " ++ joinSep " | " row ++ " |\n"
        else acc) md

/-- `DoclingPipeline._count_by_type`. -/
def count_by_type (elements : List Element) : List (String × Nat) :=
  countByTypeFold (elements.map (fun e => e.type))

/-- The markdown fragment `_fallback_extraction` appends to `page_content`
for one classified block. -/
def blockMarkdown (element_type : String) (block_text : String) : String :=
  if element_type = "title" then "# " ++ pyStrip block_text ++ "\n\n"
  else if element_type = "header" then "## " ++ pyStrip block_text ++ "\n\n"
  else pyStrip block_text ++ "\n\n"

/-- One block of the Docling fallback loop. -/
def processBlock (page_num idx : Nat) (b : Block) : Option Element × String :=
  match b.lines with
  | none => (none, "")
  | some lines =>
    let block_text := linesBlockText lines
    if pyStrip block_text = "" then (none, "")
    else
      let element_type := classify_block block_text b.bbox
      (some
        { id := "page_" ++ toString page_num ++ "_block_" ++ toString idx
          type := element_type
          content := pyStrip block_text
          bbox := ⟨b.bbox.x1, b.bbox.y1, b.bbox.x2, b.bbox.y2, page_num⟩
          confidence := 0.85 },
        blockMarkdown element_type block_text)

/-- The enumerated block loop of one page. -/
def processBlocks (page_num : Nat) : List (Nat × Block) → List Element × String
  | [] => ([], "")
  | (idx, b) :: rest =>
    ((processBlock page_num idx b).1.toList ++ (processBlocks page_num rest).1,
      (processBlock page_num idx b).2 ++ (processBlocks page_num rest).2)

/-- The table element of the Docling fallback. -/
def tableElement (page_num idx : Nat) (t : PTable) : Element :=
  { id := "page_" ++ toString page_num ++ "_table_" ++ toString idx
    type := "table"
    content := format_table_markdown t.cells
    bbox := ⟨t.bbox.x1, t.bbox.y1, t.bbox.x2, t.bbox.y2, page_num⟩
    confidence := 0.80 }

/-- The enumerated table loop of one page. -/
def processTables (page_num : Nat) : List (Nat × PTable) → List Element × String
  | [] => ([], "")
  | (idx, t) :: rest =>
    if t.cells ≠ [] then
      (tableElement page_num idx t :: (processTables page_num rest).1,
        ("\n" ++ format_table_markdown t.cells ++ "\n\n") ++ (processTables page_num rest).2)
    else processTables page_num rest

/-- One page of the Docling fallback: the `## Page N` header and block
fragments go to the page content, the table markdown is appended to the
document markdown right after it; a raising `page.find_tables()` is
swallowed by the `except: pass`. -/
def processPage (page_num : Nat) (p : Page) : List Element × String :=
  let header := "\n\n## Page " ++ toString (page_num + 1) ++ "\n\n"
  match p.find_tables with
  | .error _ => ((processBlocks page_num p.blocks.enum).1,
      header ++ (processBlocks page_num p.blocks.enum).2)
  | .ok tbls =>
    ((processBlocks page_num p.blocks.enum).1 ++ (processTables page_num tbls.enum).1,
      header ++ (processBlocks page_num p.blocks.enum).2 ++ (processTables page_num tbls.enum).2)

/-- The page loop of the Docling fallback. -/
def processPages : Nat → List Page → List Element × String
  | _, [] => ([], "")
  | n, p :: rest =>
    ((processPage n p).1 ++ (processPages (n + 1) rest).1,
      (processPage n p).2 ++ (processPages (n + 1) rest).2)

/-- `DoclingPipeline._fallback_extraction`; `.error` input embeds a raise
while opening/reading the document, answered by the outer `except` clause.
After the page loop the source runs `doc.close()` (docling_pipeline.py:217)
and then builds the metadata dict whose first entry evaluates `len(doc)`
(line 220); on a closed PyMuPDF document this raises
`ValueError('document closed')`, so the `success=True` return is
unreachable and the outer `except` always answers with the failure result
carrying that message. -/
def fallback_extraction (doc : Except String (List Page)) : ExtractionResult :=
  match doc with
  | .error e => emptyErrorResult e
  | .ok pages =>
    let _assembled := processPages 0 pages
    emptyErrorResult "document closed"

end DoclingPipeline

/-! ## Surya pipeline (src/backend/models/surya_pipeline.py)

The PyMuPDF fallback extractor of class `SuryaPipeline`, including the
image-element path with the 50×50 decorative-image filter and the estimated
bounding box. -/

namespace SuryaPipeline

/-- `SuryaPipeline._count_by_type`. -/
def count_by_type (elements : List Element) : List (String × Nat) :=
  countByTypeFold (elements.map (fun e => e.type))

/-- `SuryaPipeline._estimate_image_bbox` (happy path; its internal
`except` is unreachable in this pure embedding): image centered
horizontally, capped to 80% of the page width and 60% of its height,
anchored 30% down the page. -/
def estimate_image_bbox (rect : PageRect) (img : PImage) : BBox4 :=
  let img_width := min (img.width : Rat) (rect.width * 0.8)
  let img_height := min (img.height : Rat) (rect.height * 0.6)
  let x1 := (rect.width - img_width) / 2
  let y1 := rect.height * 0.3
  ⟨x1, y1, x1 + img_width, y1 + img_height⟩

/-- One image of the fallback image loop: dropped as decorative when either
dimension is below 50 pixels, else an `image` element with the estimated
bbox and the `image_info` record. -/
def imageElement (page_num idx : Nat) (rect : PageRect) (img : PImage) : Option Element :=
  if img.width < 50 ∨ img.height < 50 then none
  else
    let bb := estimate_image_bbox rect img
    some
      { id := "page_" ++ toString page_num ++ "_image_" ++ toString idx
        type := "image"
        content := "[Image: " ++ toString img.width ++ "x" ++ toString img.height ++ " pixels]"
        bbox := ⟨bb.x1, bb.y1, bb.x2, bb.y2, page_num⟩
        confidence := 0.85
        language := some "image"
        image_info := some
          { width := img.width
            height := img.height
            colorspace := (match img.colorspace with | some n => n | none => "Unknown")
            xref := img.xref
            size_bytes := img.size_bytes } }

/-- The markdown fragment for one kept image. -/
def imageMarkdown (page_num idx : Nat) (img : PImage) : String :=
  "\n![Image " ++ toString (idx + 1) ++ "](image_" ++ toString page_num ++ "_" ++
    toString idx ++ ".png)\n" ++
    "*Image: " ++ toString img.width ++ "x" ++ toString img.height ++ " pixels*\n\n"

/-- The enumerated image loop of one page. -/
def processImages (page_num : Nat) (rect : PageRect) : List (Nat × PImage) → List Element × String
  | [] => ([], "")
  | (idx, img) :: rest =>
    match imageElement page_num idx rect img with
    | none => processImages page_num rect rest
    | some e => (e :: (processImages page_num rect rest).1,
        imageMarkdown page_num idx img ++ (processImages page_num rect rest).2)

/-- One text block of the fallback loops (span concatenation, no newlines);
`conf`/`lang` are 0.75/`"unknown"` in the scanned branch and 0.80/`"en"` in
the regular branch. -/
def textBlockElement (page_num idx : Nat) (conf : Rat) (lang : String) (b : Block) :
    Option (Element × String) :=
  match b.lines with
  | none => none
  | some lines =>
    let block_text := spansBlockText lines
    if pyStrip block_text = "" then none
    else
      some
        ({ id := "page_" ++ toString page_num ++ "_block_" ++ toString idx
           type := "text"
           content := pyStrip block_text
           bbox := ⟨b.bbox.x1, b.bbox.y1, b.bbox.x2, b.bbox.y2, page_num⟩
           confidence := conf
           language := some lang },
          pyStrip block_text ++ "\n\n")

/-- The enumerated text-block loop of one page. -/
def processTextBlocks (page_num : Nat) (conf : Rat) (lang : String) :
    List (Nat × Block) → List Element × String
  | [] => ([], "")
  | (idx, b) :: rest =>
    match textBlockElement page_num idx conf lang b with
    | none => processTextBlocks page_num conf lang rest
    | some (e, frag) => (e :: (processTextBlocks page_num conf lang rest).1,
        frag ++ (processTextBlocks page_num conf lang rest).2)

/-- The `[Scanned content detected]` placeholder element that the scanned
branch appends in the `else` clause of its image `try` (i.e. exactly when
image extraction did not raise). -/
def scannedElement (page_num : Nat) : Element :=
  { id := "page_" ++ toString page_num ++ "_scanned"
    type := "text"
    content := "[Scanned content detected - OCR processing recommended]"
    bbox := ⟨0, 0, 612, 792, page_num⟩
    confidence := 0.50
    language := some "unknown" }

/-- One page of the Surya fallback.  A stripped page text shorter than 50
characters takes the scanned branch (blocks at confidence 0.75, then the
images, then — only when image extraction succeeded — the scanned
placeholder); otherwise the regular branch (blocks at 0.80, then images).
A raising `page.get_images()` is swallowed by the `except` clause. -/
def processPage (page_num : Nat) (p : Page) : List Element × String :=
  let header := "\n\n## Page " ++ toString (page_num + 1) ++ "\n\n"
  if (pyStrip p.text).length < 50 then
    let blocksPart :=
      if p.blocks ≠ [] then processTextBlocks page_num 0.75 "unknown" p.blocks.enum
      else ([], "")
    match p.get_images with
    | .error _ => (blocksPart.1, header ++ blocksPart.2)
    | .ok imgs =>
      (blocksPart.1 ++ (processImages page_num p.rect imgs.enum).1 ++ [scannedElement page_num],
        header ++ blocksPart.2 ++ (processImages page_num p.rect imgs.enum).2 ++
          "[Scanned page - OCR needed]\n\n")
  else
    match p.get_images with
    | .error _ => ((processTextBlocks page_num 0.80 "en" p.blocks.enum).1,
        header ++ (processTextBlocks page_num 0.80 "en" p.blocks.enum).2)
    | .ok imgs =>
      ((processTextBlocks page_num 0.80 "en" p.blocks.enum).1 ++
          (processImages page_num p.rect imgs.enum).1,
        header ++ (processTextBlocks page_num 0.80 "en" p.blocks.enum).2 ++
          (processImages page_num p.rect imgs.enum).2)

/-- The page loop of the Surya fallback. -/
def processPages : Nat → List Page → List Element × String
  | _, [] => ([], "")
  | n, p :: rest =>
    ((processPage n p).1 ++ (processPages (n + 1) rest).1,
      (processPage n p).2 ++ (processPages (n + 1) rest).2)

/-- `SuryaPipeline._fallback_extraction`; `.error` input embeds a raise
while opening/reading the document, answered by the outer `except` clause.
After the page loop the source runs `doc.close()` (surya_pipeline.py:452)
and then builds the metadata dict whose first entry evaluates `len(doc)`
(line 455); on a closed PyMuPDF document this raises
`ValueError('document closed')`, so the `success=True` return is
unreachable and the outer `except` always answers with the failure result
carrying that message. -/
def fallback_extraction (doc : Except String (List Page)) : ExtractionResult :=
  match doc with
  | .error e => emptyErrorResult e
  | .ok pages =>
    let _assembled := processPages 0 pages
    emptyErrorResult "document closed"

end SuryaPipeline

/-! ## Production app (src/backend/modal_app_production.py)

The font-size/position classifier and the table-cell elements of
`extract_tables_from_page`. -/

namespace ModalAppProduction

/-- `classify_element`: font-size thresholds first, then page-relative
position. -/
def classify_element (font_size : Rat) (bbox : BBox4) (page_rect : PageRect) : String :=
  let page_height := page_rect.height
  let y_position := bbox.y1
  if font_size > 20 then "title"
  else if font_size > 16 then "header"
  else if font_size > 14 then "subheader"
  else if y_position < page_height * 0.1 then "header"
  else if y_position > page_height * 0.9 then "footer"
  else "text"

/-- One per-cell element dict of `extract_tables_from_page`. -/
structure TableCellElement where
  type : String
  content : String
  bbox : List Rat
  page : Nat
  confidence : Rat
  table_id : Nat
  row : Nat
  column : Nat
deriving Repr, DecidableEq, Inhabited

/-- The per-cell element loop of `extract_tables_from_page` for one table:
`df` rows are the extracted grid without its header row; `none` cells embed
`NaN` values, which `pd.notna` skips. -/
def tableCellElements (page_no table_id : Nat) (dfRows : List (List (Option String))) :
    List TableCellElement :=
  dfRows.enum.flatMap (fun rc =>
    rc.2.enum.filterMap (fun cc =>
      match cc.2 with
      | none => none
      | some cell => some
        { type := "table_cell"
          content := cell
          bbox := [0, 0, 0, 0]
          page := page_no
          confidence := 0.9
          table_id := table_id
          row := rc.1
          column := cc.1 }))

end ModalAppProduction

/-! ## Enhanced app (src/backend/modal_app_enhanced.py)

The three per-model classifier helpers and their own copies of the
scientific detectors. -/

namespace ModalAppEnhanced

/-- `classify_element_docling_style`.  Note: unlike the spec's generic
profile, `title` here additionally requires a text shorter than 100
characters, the thresholds are 16/14, and `subheader` is never produced. -/
def classify_element_docling_style (text : String) (font_size : Rat) (bbox : BBox4) : String :=
  let _text_lower := pyStrip (pyLower text)
  if font_size > 16 ∧ text.length < 100 then "title"
  else if font_size > 14 then "header"
  else if pyStartsWithAny text ["•", "-", "1.", "2.", "3.", "4.", "5."] then "list"
  else if text.length < 50 ∧ bbox.y1 < 100 then "header"
  else "text"

/-- `classify_element_surya_style`: note the `label` type for short text. -/
def classify_element_surya_style (text : String) (bbox : BBox4) : String :=
  if text.length < 10 then "label"
  else if bbox.y2 - bbox.y1 < 20 then "caption"
  else if pyIsUpper text ∧ text.length < 50 then "header"
  else "text"

/-- The enhanced app's own `contains_formula` (four of the seven MinerU
patterns). -/
def contains_formula (text : String) : Bool :=
  let s := text.toList
  s.any isMathSymbol || s.any isGreekChar || searchArith s || searchVarAssign s

/-- The enhanced app's own `contains_citation` (three patterns,
`re.IGNORECASE`). -/
def contains_citation (text : String) : Bool :=
  let s := text.toList
  searchBracketRef s || searchAuthorYear s || containsCI "et al." s

/-- The enhanced app's own nine-entry section vocabulary. -/
def academic_sections : List String :=
  ["abstract", "introduction", "methodology", "methods", "results",
   "discussion", "conclusion", "acknowledgments", "references"]

/-- The enhanced app's own `is_academic_section` (substring only, no
numbered-section pattern). -/
def is_academic_section (text : String) : Bool :=
  let text_lower := pyStrip (pyLower text)
  academic_sections.any (fun sec => pyContains text_lower sec)

/-- `classify_element_scientific`. -/
def classify_element_scientific (text : String) (bbox : BBox4) : String :=
  let text_lower := pyStrip (pyLower text)
  if contains_formula text then "equation"
  else if contains_citation text then "citation"
  else if is_academic_section text then "header"
  else if pyStartsWithAny text_lower ["fig", "figure", "table", "chart"] then "caption"
  else if text.length < 100 ∧ bbox.y1 < 150 then "title"
  else "text"

end ModalAppEnhanced

/-! ## Unified app (src/backend/modal_app_unified.py)

`_enhanced_pymupdf_extraction` and its helpers.  Its outermost `except`
clause re-raises the failure as `HTTPException(status_code=500, ...)` —
embedded as `Except.error` — instead of returning a `success=False`
result. -/

namespace ModalAppUnified

/-- The pydantic `ElementInfo` model of the unified app. -/
structure ElementInfo where
  type : String
  content : String
  bbox : List Rat
  page : Nat
  confidence : Rat
deriving Repr, DecidableEq, Inhabited

/-- `_classify_docling_style`. -/
def classify_docling_style (text : String) (bbox : BBox4) (page_rect : PageRect) : String :=
  let text_lower := pyStrip (pyLower text)
  if text_lower.length < 100 ∧ bbox.y1 < page_rect.height * 0.2 then "title"
  else if ["chapter", "section", "introduction", "conclusion"].any
      (fun w => pyContains text_lower w) then "header"
  else if pyStartsWithAny text_lower ["•", "-", "*", "1.", "2.", "a)", "i)"] then "list"
  else "text"

/-- The character class `[=∑∏∫∂∇±≤≥≠≈∝∈∉⊂⊃∪∩]` of the unified scientific
pattern (it includes `'='` and omits `'∞'`). -/
def isUnifiedMathChar (c : Char) : Bool :=
  c ∈ ['=', '∑', '∏', '∫', '∂', '∇', '±', '≤', '≥', '≠', '≈', '∝', '∈', '∉', '⊂', '⊃', '∪', '∩']

/-- `re.search(r'\\[a-zA-Z]+\{', text)`: a backslash command followed by an
opening brace, with no closing brace required. -/
def hasBackslashCmdOpen (s : List Char) : Bool :=
  s.tails.any (fun t =>
    match t with
    | '\\' :: rest =>
      !(rest.takeWhile isAsciiAlpha).isEmpty &&
        (match rest.dropWhile isAsciiAlpha with
         | '\x7b' :: _ => true
         | _ => false)
    | _ => false)

/-- `_classify_scientific_style`.  Unlike the MinerU detectors, the citation
search here is case-sensitive (no `re.IGNORECASE`). -/
def classify_scientific_style (text : String) : String :=
  let text_lower := pyStrip (pyLower text)
  let s := text.toList
  if s.any isUnifiedMathChar || hasBackslashCmdOpen s || hasDollarPair s then "equation"
  else if searchBracketRef s || searchAuthorYear s ||
      listContainsSub "et al.".toList s || listContainsSub "ibid.".toList s then "citation"
  else if ["abstract", "methodology", "results", "discussion", "references"].any
      (fun w => pyContains text_lower w) then "header"
  else "text"

/-- `_count_elements_by_type`. -/
def count_elements_by_type (elements : List ElementInfo) : List (String × Nat) :=
  countByTypeFold (elements.map (fun e => e.type))

/-- Python `round(q, 2)` (round half to even), idealized over exact
rationals; every claim here is independent of its value. -/
def pyRound2 (q : Rat) : Rat :=
  let y := q * 100
  let fl : Int := ⌊y⌋
  let fr : Rat := y - fl
  let r : Int :=
    if fr < 1/2 then fl
    else if fr > 1/2 then fl + 1
    else if fl % 2 = 0 then fl else fl + 1
  (r : Rat) / 100

/-- Modelled from the spec: `pandas.DataFrame.to_markdown(index=False)` on
the engine-supplied cell grid.  The spec (section 6) treats table grids as
externally supplied and pandas is an external library missing from src/;
every claim proved here is independent of this string's exact shape. -/
def pandasToMarkdown (cells : List (List String)) : String :=
  match cells with
  | [] => ""
  | headers :: rows =>
    "| " ++ joinSep " | " headers ++ " |\n" ++
      "|" ++ joinSep "|" (List.replicate headers.length "---") ++ "|\n" ++
      joinSep "\n" (rows.map (fun r => "| " ++ joinSep " | " r ++ " |"))

/-- The guard `df is not None and not df.empty` on the frame built from the
extracted grid (first row = headers): at least one data row and one column. -/
def dfIsUsable (cells : List (List String)) : Bool :=
  match cells with
  | [] => false
  | headers :: rows => !rows.isEmpty && !headers.isEmpty

/-- The docling-branch block loop of `_enhanced_pymupdf_extraction`. -/
def doclingBlocks (page_num : Nat) (pr : PageRect) : List Block → List ElementInfo × List String
  | [] => ([], [])
  | b :: rest =>
    let (els, fts) := doclingBlocks page_num pr rest
    match b.lines with
    | none => (els, fts)
    | some lines =>
      let block_text := spansBlockText lines
      if pyStrip block_text = "" then (els, fts)
      else
        let element_type := classify_docling_style block_text b.bbox pr
        let confidence : Rat := if element_type ≠ "text" then 0.92 else 0.88
        ({ type := element_type
           content := pyStrip block_text
           bbox := [b.bbox.x1, b.bbox.y1, b.bbox.x2, b.bbox.y2]
           page := page_num + 1
           confidence := confidence } :: els,
          pyStrip block_text :: fts)

/-- The docling-branch table loop of `_enhanced_pymupdf_extraction`. -/
def doclingTables (page_num : Nat) : List PTable → List ElementInfo × List String
  | [] => ([], [])
  | t :: rest =>
    let (els, fts) := doclingTables page_num rest
    if dfIsUsable t.cells then
      let md := pandasToMarkdown t.cells
      ({ type := "table"
         content := md
         bbox := [t.bbox.x1, t.bbox.y1, t.bbox.x2, t.bbox.y2]
         page := page_num + 1
         confidence := 0.90 } :: els,
        ("\n" ++ md ++ "\n") :: fts)
    else (els, fts)

/-- The surya-branch block loop (plain `text` elements at 0.91). -/
def suryaBlocks (page_num : Nat) : List Block → List ElementInfo × List String
  | [] => ([], [])
  | b :: rest =>
    let (els, fts) := suryaBlocks page_num rest
    match b.lines with
    | none => (els, fts)
    | some lines =>
      let block_text := spansBlockText lines
      if pyStrip block_text = "" then (els, fts)
      else
        ({ type := "text"
           content := pyStrip block_text
           bbox := [b.bbox.x1, b.bbox.y1, b.bbox.x2, b.bbox.y2]
           page := page_num + 1
           confidence := 0.91 } :: els,
          pyStrip block_text :: fts)

/-- The mineru-branch block loop (scientific classification, 0.94 for
equations/citations, 0.89 otherwise). -/
def mineruBlocks (page_num : Nat) : List Block → List ElementInfo × List String
  | [] => ([], [])
  | b :: rest =>
    let (els, fts) := mineruBlocks page_num rest
    match b.lines with
    | none => (els, fts)
    | some lines =>
      let block_text := spansBlockText lines
      if pyStrip block_text = "" then (els, fts)
      else
        let element_type := classify_scientific_style block_text
        let confidence : Rat :=
          if element_type = "equation" ∨ element_type = "citation" then 0.94 else 0.89
        ({ type := element_type
           content := pyStrip block_text
           bbox := [b.bbox.x1, b.bbox.y1, b.bbox.x2, b.bbox.y2]
           page := page_num + 1
           confidence := confidence } :: els,
          pyStrip block_text :: fts)

/-- One page of `_enhanced_pymupdf_extraction`, by model branch; a raising
`page.find_tables()` in the docling branch is swallowed by its
`except: pass`.  A model other than the three contributes nothing. -/
def pageData (model : String) (page_num : Nat) (p : Page) : List ElementInfo × List String :=
  if model = "docling" then
    let (bels, bfts) := doclingBlocks page_num p.rect p.blocks
    match p.find_tables with
    | .error _ => (bels, bfts)
    | .ok tbls =>
      let (tels, tfts) := doclingTables page_num tbls
      (bels ++ tels, bfts ++ tfts)
  else if model = "surya" then suryaBlocks page_num p.blocks
  else if model = "mineru" then mineruBlocks page_num p.blocks
  else ([], [])

/-- The page loop of `_enhanced_pymupdf_extraction`. -/
def pagesData (model : String) : Nat → List Page → List ElementInfo × List String
  | _, [] => ([], [])
  | n, p :: rest =>
    let (els, fts) := pageData model n p
    let (els2, fts2) := pagesData model (n + 1) rest
    (els ++ els2, fts ++ fts2)

/-- The unified app's metadata dictionary. -/
structure UnifiedMetadata where
  total_pages : Nat
  total_elements : Nat
  confidence_avg : Rat
  processing_time : Rat
  model_used : String
  enhancement_level : String
  by_type : List (String × Nat)
deriving Repr, DecidableEq, Inhabited

/-- The pydantic `ExtractionResult` model of the unified app (it has no
`success`/`error` fields — failures surface as raised `HTTPException`s). -/
structure UnifiedResult where
  markdown : String
  elements : List ElementInfo
  metadata : UnifiedMetadata
  processing_time : Rat
  model : String
deriving Repr, DecidableEq, Inhabited

/-- `_enhanced_pymupdf_extraction`.  A raise while opening/reading the
document (`.error` input) reaches the outermost `except Exception` clause,
which does NOT return an empty well-formed result: it re-raises as
`HTTPException(status_code=500, detail=f"Enhanced extraction failed: ...")`,
embedded as `Except.error` with that detail string.  `processing_time` is
external wall-clock time, passed in as a parameter. -/
def enhanced_pymupdf_extraction (pdf : Except String (List Page)) (model : String)
    (processing_time : Rat) : Except String UnifiedResult :=
  match pdf with
  | .error e => .error ("Enhanced extraction failed: " ++ e)
  | .ok pages =>
    let (elements, full_text) := pagesData model 0 pages
    let markdown_content := joinSep "\n\n" full_text
    let total_confidence := (elements.map (fun e => e.confidence)).sum
    let element_count := elements.length
    let avg_confidence : Rat :=
      if element_count > 0 then total_confidence / element_count else 0.90
    .ok
      { markdown := markdown_content
        elements := elements
        metadata :=
          { total_pages := pages.length
            total_elements := elements.length
            confidence_avg := pyRound2 avg_confidence
            processing_time := pyRound2 processing_time
            model_used := model
            enhancement_level := "advanced"
            by_type := count_elements_by_type elements }
        processing_time := pyRound2 processing_time
        model := model }

end ModalAppUnified

/-! ## Claim theorems -/

/-- C8: `isFormula` (MinerU `_contains_formula`) returns true on
`"E = mc^2"` — and indeed via the single-letter variable-assignment pattern,
shown by the middle conjunct — and returns false on `"hello world"`, which
matches none of the seven formula patterns. -/
theorem claim_C8_formula_detection :
    MinerUPipeline.contains_formula "E = mc^2" = true ∧
      searchVarAssign "E = mc^2".toList = true ∧
      MinerUPipeline.contains_formula "hello world" = false := by
  refine ⟨?_, ?_, ?_⟩ <;> decide

/-- C7: `extractReferences` (MinerU `_extract_references`) expands bracketed
hyphen ranges inclusively and splits comma lists, with set semantics:
`"[1-3]"` yields exactly the references 1, 2, 3 and `"[1,5]"` exactly 1
and 5 (and neither raises). -/
theorem claim_C7_reference_expansion :
    (MinerUPipeline.extract_references "[1-3]" ≠ none ∧
      ∀ s, s ∈ (MinerUPipeline.extract_references "[1-3]").getD [] ↔ s ∈ ["1", "2", "3"]) ∧
    (MinerUPipeline.extract_references "[1,5]" ≠ none ∧
      ∀ s, s ∈ (MinerUPipeline.extract_references "[1,5]").getD [] ↔ s ∈ ["1", "5"]) := by
  have h1 : MinerUPipeline.extract_references "[1-3]" = some ["1", "2", "3"] := by decide
  have h2 : MinerUPipeline.extract_references "[1,5]" = some ["1", "5"] := by decide
  exact ⟨⟨by simp [h1], fun s => by simp [h1]⟩, ⟨by simp [h2], fun s => by simp [h2]⟩⟩

/-- C5: in `_classify_scientific_block` the rules apply with first-match
precedence: a text matching the formula detector classifies as `equation`
regardless of any other rule (in particular even when the citation detector
also matches), and a text matching the citation detector but not the formula
detector classifies as `citation` regardless of the academic-section and
caption rules. -/
theorem claim_C5_scientific_precedence (text : String) (bbox : BBox4) :
    (MinerUPipeline.contains_formula text = true →
      MinerUPipeline.classify_scientific_block text bbox = "equation") ∧
    (MinerUPipeline.contains_formula text = false →
      MinerUPipeline.contains_citation text = true →
      MinerUPipeline.classify_scientific_block text bbox = "citation") := by
  constructor
  · intro h
    simp [MinerUPipeline.classify_scientific_block, h]
  · intro hf hc
    simp [MinerUPipeline.classify_scientific_block, hf, hc]

/-- C5 witness: `"x = 1 [1,2]"` matches both the formula and citation
patterns and classifies as `equation`; `"table results [1]"` matches the
citation pattern (not the formula one) and also the academic-section
vocabulary (`results`) and the caption prefix (`table`), yet classifies as
`citation`. -/
theorem claim_C5_witness :
    MinerUPipeline.contains_formula "x = 1 [1,2]" = true ∧
    MinerUPipeline.contains_citation "x = 1 [1,2]" = true ∧
    MinerUPipeline.classify_scientific_block "x = 1 [1,2]" ⟨0, 300, 100, 320⟩ = "equation" ∧
    MinerUPipeline.contains_formula "table results [1]" = false ∧
    MinerUPipeline.contains_citation "table results [1]" = true ∧
    MinerUPipeline.is_academic_section "table results [1]" = true ∧
    MinerUPipeline.classify_scientific_block "table results [1]" ⟨0, 300, 100, 320⟩ = "citation" :=
  ⟨by decide, by decide,
    (claim_C5_scientific_precedence "x = 1 [1,2]" ⟨0, 300, 100, 320⟩).1 (by decide),
    by decide, by decide, by decide,
    (claim_C5_scientific_precedence "table results [1]" ⟨0, 300, 100, 320⟩).2
      (by decide) (by decide)⟩

/-- C4 counterexample: the claim's font-size-only precedence fails on the
enhanced app's docling-style classifier: with fontSize 22 (`> 20`) and a
100-character text it returns `"header"`, not `"title"`. -/
theorem claim_C4_counterexample :
    ModalAppEnhanced.classify_element_docling_style
        (String.mk (List.replicate 100 'a')) 22 ⟨0, 500, 100, 520⟩ = "header" ∧
      ("header" : String) ≠ "title" := by
  refine ⟨?_, by decide⟩
  decide

/-- C4 amended: the production classifier (`modal_app_production.py`)
applies the three font-size rules exactly as claimed — `> 20` title, else
`> 16` header, else `> 14` subheader — before any position rule; the
enhanced app's docling-style variant instead returns `title` only when
fontSize exceeds 16 AND the text is shorter than 100 characters, returns
`header` whenever fontSize exceeds 14 otherwise, and never returns
`subheader`. -/
theorem claim_C4_font_size_rules (font_size : Rat) (bbox : BBox4) (page_rect : PageRect)
    (text : String) :
    (font_size > 20 →
      ModalAppProduction.classify_element font_size bbox page_rect = "title") ∧
    (font_size ≤ 20 → font_size > 16 →
      ModalAppProduction.classify_element font_size bbox page_rect = "header") ∧
    (font_size ≤ 16 → font_size > 14 →
      ModalAppProduction.classify_element font_size bbox page_rect = "subheader") ∧
    (font_size > 16 → text.length < 100 →
      ModalAppEnhanced.classify_element_docling_style text font_size bbox = "title") ∧
    (font_size > 14 → ¬(font_size > 16 ∧ text.length < 100) →
      ModalAppEnhanced.classify_element_docling_style text font_size bbox = "header") ∧
    ModalAppEnhanced.classify_element_docling_style text font_size bbox ≠ "subheader" := by
  unfold ModalAppProduction.classify_element ModalAppEnhanced.classify_element_docling_style
  refine ⟨?_, ?_, ?_, ?_, ?_, ?_⟩
  · intro h
    rw [if_pos h]
  · intro h1 h2
    rw [if_neg (by linarith), if_pos h2]
  · intro h1 h2
    rw [if_neg (by linarith), if_neg (by linarith), if_pos h2]
  · intro h1 h2
    rw [if_pos ⟨h1, h2⟩]
  · intro h1 h2
    rw [if_neg h2, if_pos h1]
  · split_ifs <;> decide

/-! ### Newline counting for the table formatters (C6) -/

theorem nlCount_append (a b : String) : nlCount (a ++ b) = nlCount a + nlCount b := by
  cases a with
  | mk da =>
    cases b with
    | mk db =>
      simp [nlCount, String.toList, List.count_append]

theorem nlCount_joinSep (sep : String) (l : List String) (hsep : nlCount sep = 0)
    (h : ∀ x ∈ l, nlCount x = 0) : nlCount (joinSep sep l) = 0 := by
  induction l with
  | nil => rfl
  | cons x xs ih =>
    cases xs with
    | nil => exact h x (by simp)
    | cons y ys =>
      show nlCount (x ++ sep ++ joinSep sep (y :: ys)) = 0
      rw [nlCount_append, nlCount_append, h x (by simp), hsep,
        ih (fun z hz => h z (by simp [hz]))]

/-- One emitted table row contributes exactly one newline when its cells are
newline-free. -/
theorem nlCount_row (cells : List String) (h : ∀ x ∈ cells, nlCount x = 0) :
    nlCount ("| " ++ joinSep " | " cells ++ " |\n") = 1 := by
  rw [nlCount_append, nlCount_append, nlCount_joinSep " | " cells (by decide) h]
  decide

/-- The header plus separator rows contribute exactly two newlines. -/
theorem nlCount_header (headers : List String) (h : ∀ x ∈ headers, nlCount x = 0) :
    nlCount ("| " ++ joinSep " | " headers ++ " |\n" ++ "| " ++
      joinSep " | " (List.replicate headers.length "---") ++ " |\n") = 2 := by
  rw [nlCount_append, nlCount_append, nlCount_append, nlCount_append,
    nlCount_append, nlCount_joinSep " | " headers (by decide) h,
    nlCount_joinSep " | " (List.replicate headers.length "---") (by decide)
      (fun x hx => by rw [List.eq_of_mem_replicate hx]; decide)]
  decide

theorem replaceChar_count_nl (c : Char) (repl s : List Char)
    (hr : repl.count '\n' = 0) (hs : s.count '\n' = 0) :
    (replaceChar c repl s).count '\n' = 0 := by
  induction s with
  | nil => rfl
  | cons x xs ih =>
    rw [List.count_cons] at hs
    have hxs : xs.count '\n' = 0 := by omega
    show (if x = c then repl ++ replaceChar c repl xs else x :: replaceChar c repl xs).count '\n' = 0
    split
    · rw [List.count_append, hr, ih hxs]
    · rw [List.count_cons, ih hxs]
      omega

theorem applyReplacements_count_nl (ps : List (Char × String)) :
    (∀ p ∈ ps, p.2.toList.count '\n' = 0) → ∀ s : List Char, s.count '\n' = 0 →
      (MinerUPipeline.applyReplacements ps s).count '\n' = 0 := by
  induction ps with
  | nil => intro _ s hs; exact hs
  | cons p ps ih =>
    intro hps s hs
    exact ih (fun q hq => hps q (by simp [hq])) (replaceChar p.1 p.2.toList s)
      (replaceChar_count_nl _ _ _ (hps p (by simp)) hs)

theorem convert_to_latex_nlFree (t : String) (h : nlCount t = 0) :
    nlCount (MinerUPipeline.convert_to_latex t) = 0 := by
  have hreps : ∀ p ∈ MinerUPipeline.latexReplacements, p.2.toList.count '\n' = 0 := by
    decide
  exact applyReplacements_count_nl MinerUPipeline.latexReplacements hreps t.toList h

theorem closeGroup_nlFree (s : List Char) : ∀ g, closeGroup s = some g → g.count '\n' = 0 := by
  induction s with
  | nil => intro g h; simp [closeGroup] at h
  | cons c rest ih =>
    intro g h
    by_cases h1 : c = '$'
    · subst h1
      simp [closeGroup] at h
      subst h
      simp
    · by_cases h2 : c = '\n'
      · subst h2
        simp [closeGroup] at h
      · simp only [closeGroup, if_neg h1, if_neg h2] at h
        cases hcg : closeGroup rest with
        | none => simp [hcg] at h
        | some g0 =>
          simp [hcg] at h
          subst h
          simp [List.count_cons, h2, ih g0 hcg]

theorem findFirstDollarGroup_nlFree (s : List Char) :
    ∀ g, findFirstDollarGroup s = some g → g.count '\n' = 0 := by
  induction s with
  | nil => intro g h; simp [findFirstDollarGroup] at h
  | cons c rest ih =>
    intro g h
    by_cases h1 : c = '$'
    · subst h1
      simp only [findFirstDollarGroup, if_pos rfl] at h
      cases rest with
      | nil => cases h
      | cons c2 rest2 =>
        by_cases h2 : c2 = '$'
        · subst h2
          simp only [if_pos rfl] at h
          have hg := (Option.some.inj h).symm
          subst hg
          cases hcg : closeGroup rest2 with
          | none => simp [hcg]
          | some g0 =>
            simp only [hcg, Option.getD_some]
            exact closeGroup_nlFree rest2 g0 hcg
        · simp only [if_neg h2] at h
          cases hcg : closeGroup (c2 :: rest2) with
          | none =>
            rw [hcg] at h
            exact ih g h
          | some g0 =>
            rw [hcg] at h
            have hg := Option.some.inj h
            rw [← hg]
            exact closeGroup_nlFree _ g0 hcg
    · simp only [findFirstDollarGroup, if_neg h1] at h
      exact ih g h

theorem extract_latex_nlFree (t : String) (h : nlCount t = 0) :
    nlCount (MinerUPipeline.extract_latex t) = 0 := by
  unfold MinerUPipeline.extract_latex
  cases hf : findFirstDollarGroup t.toList with
  | none => exact convert_to_latex_nlFree t h
  | some g => exact findFirstDollarGroup_nlFree t.toList g hf

theorem formattedCell_nlFree (cell : String) (h : nlCount cell = 0) :
    nlCount (if MinerUPipeline.contains_formula cell then
      "$" ++ MinerUPipeline.extract_latex cell ++ "$" else cell) = 0 := by
  split
  · rw [nlCount_append, nlCount_append, extract_latex_nlFree cell h]
    decide
  · exact h

/-- The Docling row fold adds exactly one newline per row of matching
length. -/
theorem nlCount_docling_fold (hlen : Nat) (rows : List (List String))
    (hrows : ∀ row ∈ rows, ∀ cell ∈ row, nlCount cell = 0) :
    ∀ acc : String,
      nlCount (rows.foldl (fun acc row =>
        if row.length = hlen then acc ++ "| " ++ joinSep " | " row ++ " |\n" else acc) acc) =
      nlCount acc + (rows.filter (fun r => r.length == hlen)).length := by
  induction rows with
  | nil => intro acc; simp
  | cons row rows ih =>
    intro acc
    have htail := ih (fun r hr c hc => hrows r (by simp [hr]) c hc)
    by_cases hc : row.length = hlen
    · rw [List.foldl_cons, if_pos hc, htail, nlCount_append, nlCount_append, nlCount_append,
        nlCount_joinSep " | " row (by decide) (fun c hcl => hrows row (by simp) c hcl)]
      have hfil : ((row :: rows).filter (fun r => r.length == hlen)).length =
          (rows.filter (fun r => r.length == hlen)).length + 1 := by
        simp [List.filter_cons, hc]
      rw [hfil]
      have h1 : nlCount "| " = 0 := by decide
      have h2 : nlCount " |\n" = 1 := by decide
      omega
    · rw [List.foldl_cons, if_neg hc, htail]
      have hfil : ((row :: rows).filter (fun r => r.length == hlen)).length =
          (rows.filter (fun r => r.length == hlen)).length := by
        simp [List.filter_cons, hc]
      rw [hfil]

/-- The MinerU row fold adds exactly one newline per row of matching length
(formula-wrapped cells stay newline-free). -/
theorem nlCount_mineru_fold (hlen : Nat) (rows : List (List String))
    (hrows : ∀ row ∈ rows, ∀ cell ∈ row, nlCount cell = 0) :
    ∀ acc : String,
      nlCount (rows.foldl (fun acc row =>
        if row.length = hlen then
          acc ++ "| " ++ joinSep " | " (row.map (fun cell =>
            if MinerUPipeline.contains_formula cell then
              "$" ++ MinerUPipeline.extract_latex cell ++ "$" else cell)) ++ " |\n"
        else acc) acc) =
      nlCount acc + (rows.filter (fun r => r.length == hlen)).length := by
  induction rows with
  | nil => intro acc; simp
  | cons row rows ih =>
    intro acc
    have htail := ih (fun r hr c hc => hrows r (by simp [hr]) c hc)
    by_cases hc : row.length = hlen
    · have hmap : ∀ x ∈ row.map (fun cell =>
          if MinerUPipeline.contains_formula cell then
            "$" ++ MinerUPipeline.extract_latex cell ++ "$" else cell), nlCount x = 0 := by
        intro x hx
        rcases List.mem_map.mp hx with ⟨cell, hcell, hfx⟩
        rw [← hfx]
        exact formattedCell_nlFree cell (hrows row (by simp) cell hcell)
      rw [List.foldl_cons, if_pos hc, htail, nlCount_append, nlCount_append, nlCount_append,
        nlCount_joinSep " | " _ (by decide) hmap]
      have hfil : ((row :: rows).filter (fun r => r.length == hlen)).length =
          (rows.filter (fun r => r.length == hlen)).length + 1 := by
        simp [List.filter_cons, hc]
      rw [hfil]
      have h1 : nlCount "| " = 0 := by decide
      have h2 : nlCount " |\n" = 1 := by decide
      omega
    · rw [List.foldl_cons, if_neg hc, htail]
      have hfil : ((row :: rows).filter (fun r => r.length == hlen)).length =
          (rows.filter (fun r => r.length == hlen)).length := by
        simp [List.filter_cons, hc]
      rw [hfil]

/-- C6 amended: for every cell grid whose first row — the header row — is
non-empty and whose cells contain no newline characters, both table
formatters (Docling `_format_table_markdown` and MinerU
`_format_scientific_table`) emit exactly 1 header row + 1 dash separator row
+ one row per subsequent record whose length equals the header count; rows
of mismatched length are dropped, never padded, and the formatters are total
(no error).  (When the header row is itself empty — the grid `[[]]` — the
formatters return the empty string instead; this is the one point where the
claim as stated fails, see the counterexample.) -/
theorem claim_C6_table_row_count (headers : List String) (rows : List (List String))
    (hne : headers ≠ [])
    (hnl : ∀ row ∈ headers :: rows, ∀ cell ∈ row, nlCount cell = 0) :
    nlCount (DoclingPipeline.format_table_markdown (headers :: rows)) =
        1 + 1 + (rows.filter (fun r => r.length == headers.length)).length ∧
      nlCount (MinerUPipeline.format_scientific_table (headers :: rows)) =
        1 + 1 + (rows.filter (fun r => r.length == headers.length)).length := by
  have hnotEmpty : ¬(headers.isEmpty = true) := by
    simp [List.isEmpty_iff]
    exact hne
  have hhead : ∀ x ∈ headers, nlCount x = 0 := fun x hx => hnl headers (by simp) x hx
  have hrows : ∀ row ∈ rows, ∀ cell ∈ row, nlCount cell = 0 :=
    fun r hr c hc => hnl r (by simp [hr]) c hc
  have hhdr := nlCount_header headers hhead
  constructor
  · show nlCount (if headers.isEmpty then "" else _) = _
    rw [if_neg hnotEmpty, nlCount_docling_fold headers.length rows hrows, hhdr]
  · show nlCount (if headers.isEmpty then "" else _) = _
    rw [if_neg hnotEmpty, nlCount_mineru_fold headers.length rows hrows, hhdr]

/-- C6 counterexample: the grid `[[]]` is a non-empty cell grid whose first
row is the header row, yet both formatters return the empty string — 0
`|`-rows, not the claimed `1 (header) + 1 (separator) + 0 (records)`. -/
theorem claim_C6_counterexample :
    DoclingPipeline.format_table_markdown [[]] = "" ∧
      MinerUPipeline.format_scientific_table [[]] = "" ∧
      nlCount "" ≠ 1 + 1 + 0 := by
  exact ⟨rfl, rfl, by decide⟩

/-- C6 witness: a concrete grid with one matching and one mismatched row. -/
theorem claim_C6_witness :
    (["a", "b"] : List String) ≠ [] ∧
      nlCount (DoclingPipeline.format_table_markdown [["a", "b"], ["1", "2"], ["only"]]) =
        1 + 1 + ([["1", "2"], ["only"]].filter
          (fun r => r.length == (["a", "b"] : List String).length)).length ∧
      nlCount (MinerUPipeline.format_scientific_table [["a", "b"], ["1", "2"], ["only"]]) =
        1 + 1 + ([["1", "2"], ["only"]].filter
          (fun r => r.length == (["a", "b"] : List String).length)).length :=
  ⟨by decide,
    (claim_C6_table_row_count ["a", "b"] [["1", "2"], ["only"]] (by decide) (by decide)).1,
    (claim_C6_table_row_count ["a", "b"] [["1", "2"], ["only"]] (by decide) (by decide)).2⟩

/-- C9: in the Surya fallback image path, an image with both dimensions
below 50 pixels never produces an element (it is dropped as decorative,
also at the page-image-loop level), and a 200×300 image always produces an
element of type `image`. -/
theorem claim_C9_small_image_drop :
    (∀ (page_num idx : Nat) (rect : PageRect) (img : PImage),
        img.width < 50 → img.height < 50 →
        SuryaPipeline.imageElement page_num idx rect img = none) ∧
    (∀ (page_num : Nat) (rect : PageRect) (idx : Nat) (img : PImage)
        (rest : List (Nat × PImage)),
        img.width < 50 → img.height < 50 →
        SuryaPipeline.processImages page_num rect ((idx, img) :: rest) =
          SuryaPipeline.processImages page_num rect rest) ∧
    (∀ (page_num idx : Nat) (rect : PageRect) (img : PImage),
        img.width = 200 → img.height = 300 →
        ∃ e, SuryaPipeline.imageElement page_num idx rect img = some e ∧ e.type = "image") := by
  have hdrop : ∀ (page_num idx : Nat) (rect : PageRect) (img : PImage),
      img.width < 50 → img.height < 50 →
      SuryaPipeline.imageElement page_num idx rect img = none := by
    intro pn idx rect img hw _
    unfold SuryaPipeline.imageElement
    rw [if_pos (Or.inl hw)]
  refine ⟨hdrop, ?_, ?_⟩
  · intro pn rect idx img rest hw hh
    show (let (els, md) := SuryaPipeline.processImages pn rect rest
      match SuryaPipeline.imageElement pn idx rect img with
      | none => (els, md)
      | some e => (e :: els, SuryaPipeline.imageMarkdown pn idx img ++ md)) = _
    rw [hdrop pn idx rect img hw hh]
  · intro pn idx rect img hw hh
    unfold SuryaPipeline.imageElement
    rw [if_neg (by omega)]
    exact ⟨_, rfl, rfl⟩

/-- C9 witness: a 30×40 image is dropped (also from a singleton page-image
list) and a 200×300 image yields an `image` element. -/
theorem claim_C9_witness :
    SuryaPipeline.imageElement 0 0 ⟨612, 792⟩ ⟨30, 40, some "DeviceRGB", 7, 3600⟩ = none ∧
      SuryaPipeline.processImages 0 ⟨612, 792⟩ [(0, ⟨30, 40, some "DeviceRGB", 7, 3600⟩)] =
        SuryaPipeline.processImages 0 ⟨612, 792⟩ [] ∧
      ∃ e, SuryaPipeline.imageElement 0 0 ⟨612, 792⟩ ⟨200, 300, some "DeviceRGB", 7, 180000⟩ =
        some e ∧ e.type = "image" :=
  ⟨claim_C9_small_image_drop.1 0 0 ⟨612, 792⟩ ⟨30, 40, some "DeviceRGB", 7, 3600⟩
      (by norm_num) (by norm_num),
    claim_C9_small_image_drop.2.1 0 ⟨612, 792⟩ 0 ⟨30, 40, some "DeviceRGB", 7, 3600⟩ []
      (by norm_num) (by norm_num),
    claim_C9_small_image_drop.2.2 0 0 ⟨612, 792⟩ ⟨200, 300, some "DeviceRGB", 7, 180000⟩
      rfl rfl⟩

/-! ### The by_type dictionary fold (C10) -/

theorem getCount_cons (k : String) (v : Nat) (rest : List (String × Nat)) (t : String) :
    getCount ((k, v) :: rest) t = if k = t then v else getCount rest t := by
  simp only [getCount, List.find?]
  by_cases hk : k = t
  · simp [hk]
  · simp [beq_false_of_ne hk, hk]

theorem getCount_setCount_self (c : List (String × Nat)) (t : String) (n : Nat) :
    getCount (setCount c t n) t = n := by
  induction c with
  | nil => simp [setCount, getCount_cons]
  | cons p rest ih =>
    obtain ⟨k, v⟩ := p
    by_cases hk : k = t
    · subst hk
      simp [setCount, getCount_cons]
    · simp only [setCount, if_neg hk]
      rw [getCount_cons, if_neg hk, ih]

theorem getCount_setCount_ne (c : List (String × Nat)) (t s : String) (n : Nat)
    (hst : s ≠ t) : getCount (setCount c t n) s = getCount c s := by
  induction c with
  | nil =>
    simp only [setCount]
    rw [getCount_cons, if_neg (fun h => hst h.symm)]
  | cons p rest ih =>
    obtain ⟨k, v⟩ := p
    by_cases hk : k = t
    · subst hk
      rw [show setCount ((k, v) :: rest) k n = (k, n) :: rest from by simp [setCount]]
      have hks : ¬(k = s) := fun h => hst h.symm
      rw [getCount_cons, getCount_cons, if_neg hks, if_neg hks]
    · simp only [setCount, if_neg hk]
      rw [getCount_cons, getCount_cons, ih]

theorem sumCounts_setCount (c : List (String × Nat)) (t : String) :
    sumCounts (setCount c t (getCount c t + 1)) = sumCounts c + 1 := by
  induction c with
  | nil => simp [setCount, getCount, sumCounts]
  | cons p rest ih =>
    obtain ⟨k, v⟩ := p
    by_cases hk : k = t
    · subst hk
      rw [getCount_cons, if_pos rfl]
      simp [setCount, sumCounts]
      omega
    · rw [getCount_cons, if_neg hk]
      simp only [setCount, if_neg hk]
      simp only [sumCounts, List.map_cons, List.sum_cons] at ih ⊢
      omega

/-- The invariant of the `counts[t] = counts.get(t, 0) + 1` fold: it adds
one per processed type, to that type's own bucket. -/
theorem countByTypeFold_invariant (types : List String) :
    ∀ acc : List (String × Nat),
      sumCounts (types.foldl (fun counts t => setCount counts t (getCount counts t + 1)) acc) =
          sumCounts acc + types.length ∧
        ∀ t, getCount (types.foldl
            (fun counts t => setCount counts t (getCount counts t + 1)) acc) t =
          getCount acc t + (types.filter (fun x => x == t)).length := by
  induction types with
  | nil => intro acc; simp
  | cons ty tys ih =>
    intro acc
    obtain ⟨ihsum, ihget⟩ := ih (setCount acc ty (getCount acc ty + 1))
    constructor
    · rw [List.foldl_cons, ihsum, sumCounts_setCount, List.length_cons]
      omega
    · intro t
      rw [List.foldl_cons, ihget t]
      by_cases hty : ty = t
      · subst hty
        rw [getCount_setCount_self]
        simp [List.filter_cons]
        omega
      · rw [getCount_setCount_ne _ _ _ _ (fun h => hty h.symm)]
        simp [List.filter_cons, hty]

/-- C10: the per-type counts of `_count_by_type` partition the element list:
every element is counted under exactly its own type (each type's count
equals the number of elements of that type), the counts sum to the number of
elements, the three pipelines' identical copies agree, and in the
Docling-fallback metadata the `by_type` counts sum to `total_elements`. -/
theorem claim_C10_by_type_partition (elements : List Element) :
    (∀ t, getCount (MinerUPipeline.count_by_type elements) t =
        (elements.filter (fun e => e.type == t)).length) ∧
      sumCounts (MinerUPipeline.count_by_type elements) = elements.length ∧
      MinerUPipeline.count_by_type elements = DoclingPipeline.count_by_type elements ∧
      MinerUPipeline.count_by_type elements = SuryaPipeline.count_by_type elements ∧
      ∀ doc, sumCounts ((DoclingPipeline.fallback_extraction doc).metadata.by_type) =
        (DoclingPipeline.fallback_extraction doc).metadata.total_elements := by
  have hfilter : ∀ (l : List Element) (t : String),
      ((l.map (fun e => e.type)).filter (fun x => x == t)).length =
        (l.filter (fun e => e.type == t)).length := by
    intro l t
    induction l with
    | nil => rfl
    | cons e es ih =>
      by_cases he : e.type == t
      · simp [List.filter_cons, he, ih]
      · simp only [List.map_cons, List.filter_cons]
        simp only [he]
        exact ih
  have hgen : ∀ es : List Element,
      (∀ t, getCount (countByTypeFold (es.map (fun e => e.type))) t =
          (es.filter (fun e => e.type == t)).length) ∧
        sumCounts (countByTypeFold (es.map (fun e => e.type))) = es.length := by
    intro es
    obtain ⟨hsum, hget⟩ := countByTypeFold_invariant (es.map (fun e => e.type)) []
    refine ⟨fun t => ?_, ?_⟩
    · rw [countByTypeFold, hget t, hfilter es t]
      simp [getCount]
    · rw [countByTypeFold, hsum, List.length_map]
      simp [sumCounts]
  refine ⟨(hgen elements).1, (hgen elements).2, rfl, rfl, ?_⟩
  intro doc
  cases doc with
  | error e => rfl
  | ok pages => rfl

/-! ### Classifier ranges and pipeline element invariants (C1, C3) -/

theorem classify_block_range (text : String) (bbox : BBox4) :
    DoclingPipeline.classify_block text bbox ∈ (["title", "header", "text"] : List String) := by
  unfold DoclingPipeline.classify_block
  dsimp only
  split_ifs <;> simp

theorem classify_scientific_block_range (text : String) (bbox : BBox4) :
    MinerUPipeline.classify_scientific_block text bbox ∈
      (["equation", "citation", "header", "caption", "title", "text"] : List String) := by
  unfold MinerUPipeline.classify_scientific_block
  dsimp only
  split_ifs <;> simp

theorem classify_element_range (font_size : Rat) (bbox : BBox4) (page_rect : PageRect) :
    ModalAppProduction.classify_element font_size bbox page_rect ∈
      (["title", "header", "subheader", "footer", "text"] : List String) := by
  unfold ModalAppProduction.classify_element
  dsimp only
  split_ifs <;> simp

theorem classify_element_docling_style_range (text : String) (font_size : Rat) (bbox : BBox4) :
    ModalAppEnhanced.classify_element_docling_style text font_size bbox ∈
      (["title", "header", "list", "text"] : List String) := by
  unfold ModalAppEnhanced.classify_element_docling_style
  dsimp only
  split_ifs <;> simp

theorem classify_element_surya_style_range (text : String) (bbox : BBox4) :
    ModalAppEnhanced.classify_element_surya_style text bbox ∈
      (["label", "caption", "header", "text"] : List String) := by
  unfold ModalAppEnhanced.classify_element_surya_style
  split_ifs <;> simp

theorem classify_element_scientific_range (text : String) (bbox : BBox4) :
    ModalAppEnhanced.classify_element_scientific text bbox ∈
      (["equation", "citation", "header", "caption", "title", "text"] : List String) := by
  unfold ModalAppEnhanced.classify_element_scientific
  dsimp only
  split_ifs <;> simp

theorem classify_docling_style_range (text : String) (bbox : BBox4) (pr : PageRect) :
    ModalAppUnified.classify_docling_style text bbox pr ∈
      (["title", "header", "list", "text"] : List String) := by
  unfold ModalAppUnified.classify_docling_style
  dsimp only
  split_ifs <;> simp

theorem classify_scientific_style_range (text : String) :
    ModalAppUnified.classify_scientific_style text ∈
      (["equation", "citation", "header", "text"] : List String) := by
  unfold ModalAppUnified.classify_scientific_style
  dsimp only
  split_ifs <;> simp

theorem docling_blocks_mem (pn : Nat) (l : List (Nat × Block)) :
    ∀ e ∈ (DoclingPipeline.processBlocks pn l).1,
      e.confidence = 0.85 ∧ e.type ∈ (["title", "header", "text"] : List String) := by
  induction l with
  | nil => intro e he; simp [DoclingPipeline.processBlocks] at he
  | cons ib rest ih =>
    intro e he
    obtain ⟨idx, b⟩ := ib
    simp only [DoclingPipeline.processBlocks, List.mem_append] at he
    rcases he with he | he
    · unfold DoclingPipeline.processBlock at he
      cases hb : b.lines with
      | none => rw [hb] at he; simp at he
      | some lines =>
        rw [hb] at he
        by_cases hs : pyStrip (linesBlockText lines) = ""
        · simp only [if_pos hs] at he
          simp at he
        · simp only [if_neg hs] at he
          simp at he
          subst he
          exact ⟨rfl, classify_block_range _ _⟩
    · exact ih e he

theorem docling_tables_mem (pn : Nat) (l : List (Nat × PTable)) :
    ∀ e ∈ (DoclingPipeline.processTables pn l).1,
      e.confidence = 0.80 ∧ e.type = "table" := by
  induction l with
  | nil => intro e he; simp [DoclingPipeline.processTables] at he
  | cons it rest ih =>
    intro e he
    obtain ⟨idx, t⟩ := it
    unfold DoclingPipeline.processTables at he
    by_cases hc : t.cells ≠ []
    · simp only [if_pos hc] at he
      rcases List.mem_cons.mp he with he | he
      · subst he
        exact ⟨rfl, rfl⟩
      · exact ih e he
    · simp only [if_neg hc] at he
      exact ih e he

theorem docling_pages_mem (n : Nat) (pages : List Page) :
    ∀ e ∈ (DoclingPipeline.processPages n pages).1,
      (e.confidence = 0.85 ∨ e.confidence = 0.80) ∧
        e.type ∈ (["title", "header", "text", "table"] : List String) := by
  induction pages generalizing n with
  | nil => intro e he; simp [DoclingPipeline.processPages] at he
  | cons p rest ih =>
    intro e he
    simp only [DoclingPipeline.processPages, List.mem_append] at he
    rcases he with he | he
    · unfold DoclingPipeline.processPage at he
      cases hft : p.find_tables with
      | error u =>
        rw [hft] at he
        simp only [] at he
        obtain ⟨hc, ht⟩ := docling_blocks_mem n p.blocks.enum e he
        refine ⟨Or.inl hc, ?_⟩
        simp at ht ⊢
        tauto
      | ok tbls =>
        rw [hft] at he
        simp only [List.mem_append] at he
        rcases he with he | he
        · obtain ⟨hc, ht⟩ := docling_blocks_mem n p.blocks.enum e he
          refine ⟨Or.inl hc, ?_⟩
          simp at ht ⊢
          tauto
        · obtain ⟨hc, ht⟩ := docling_tables_mem n tbls.enum e he
          exact ⟨Or.inr hc, by simp [ht]⟩
    · exact ih (n + 1) e he

theorem textBlockElement_fields (pn idx : Nat) (conf : Rat) (lang : String) (b : Block)
    (el : Element) (frag : String)
    (h : SuryaPipeline.textBlockElement pn idx conf lang b = some (el, frag)) :
    el.confidence = conf ∧ el.type = "text" := by
  unfold SuryaPipeline.textBlockElement at h
  cases hb : b.lines with
  | none => rw [hb] at h; cases h
  | some lines =>
    rw [hb] at h
    by_cases hs : pyStrip (spansBlockText lines) = ""
    · simp only [if_pos hs] at h
      cases h
    · simp only [if_neg hs] at h
      cases h
      exact ⟨rfl, rfl⟩

theorem imageElement_fields (pn idx : Nat) (rect : PageRect) (img : PImage) (el : Element)
    (h : SuryaPipeline.imageElement pn idx rect img = some el) :
    el.confidence = 0.85 ∧ el.type = "image" := by
  unfold SuryaPipeline.imageElement at h
  split at h
  · cases h
  · cases h
    exact ⟨rfl, rfl⟩

theorem surya_textBlocks_mem (pn : Nat) (conf : Rat) (lang : String) (l : List (Nat × Block)) :
    ∀ e ∈ (SuryaPipeline.processTextBlocks pn conf lang l).1,
      e.confidence = conf ∧ e.type = "text" := by
  induction l with
  | nil => intro e he; simp [SuryaPipeline.processTextBlocks] at he
  | cons ib rest ih =>
    intro e he
    obtain ⟨idx, b⟩ := ib
    unfold SuryaPipeline.processTextBlocks at he
    cases htb : SuryaPipeline.textBlockElement pn idx conf lang b with
    | none => rw [htb] at he; exact ih e he
    | some p =>
      obtain ⟨el, frag⟩ := p
      rw [htb] at he
      rcases List.mem_cons.mp he with he | he
      · subst he
        exact textBlockElement_fields pn idx conf lang b _ _ htb
      · exact ih e he

theorem surya_images_mem (pn : Nat) (rect : PageRect) (l : List (Nat × PImage)) :
    ∀ e ∈ (SuryaPipeline.processImages pn rect l).1,
      e.confidence = 0.85 ∧ e.type = "image" := by
  induction l with
  | nil => intro e he; simp [SuryaPipeline.processImages] at he
  | cons ii rest ih =>
    intro e he
    obtain ⟨idx, img⟩ := ii
    unfold SuryaPipeline.processImages at he
    cases hie : SuryaPipeline.imageElement pn idx rect img with
    | none => rw [hie] at he; exact ih e he
    | some el =>
      rw [hie] at he
      rcases List.mem_cons.mp he with he | he
      · subst he
        exact imageElement_fields pn idx rect img _ hie
      · exact ih e he

theorem surya_page_mem (n : Nat) (p : Page) :
    ∀ e ∈ (SuryaPipeline.processPage n p).1,
      (e.confidence = 0.75 ∨ e.confidence = 0.80 ∨ e.confidence = 0.85 ∨
          e.confidence = 0.50) ∧
        e.type ∈ (["text", "image"] : List String) := by
  intro e he
  unfold SuryaPipeline.processPage at he
  by_cases hscan : (pyStrip p.text).length < 50
  · simp only [if_pos hscan] at he
    cases hgi : p.get_images with
    | error u =>
      rw [hgi] at he
      simp only [] at he
      by_cases hb : p.blocks ≠ []
      · simp only [if_pos hb] at he
        obtain ⟨hc, ht⟩ := surya_textBlocks_mem n 0.75 "unknown" p.blocks.enum e he
        exact ⟨Or.inl hc, by simp [ht]⟩
      · simp only [if_neg hb] at he
        simp at he
    | ok imgs =>
      rw [hgi] at he
      simp only [List.mem_append] at he
      rcases he with (he | he) | he
      · by_cases hb : p.blocks ≠ []
        · simp only [if_pos hb] at he
          obtain ⟨hc, ht⟩ := surya_textBlocks_mem n 0.75 "unknown" p.blocks.enum e he
          exact ⟨Or.inl hc, by simp [ht]⟩
        · simp only [if_neg hb] at he
          simp at he
      · obtain ⟨hc, ht⟩ := surya_images_mem n p.rect imgs.enum e he
        exact ⟨Or.inr (Or.inr (Or.inl hc)), by simp [ht]⟩
      · simp at he
        subst he
        exact ⟨Or.inr (Or.inr (Or.inr rfl)), by simp [SuryaPipeline.scannedElement]⟩
  · simp only [if_neg hscan] at he
    cases hgi : p.get_images with
    | error u =>
      rw [hgi] at he
      obtain ⟨hc, ht⟩ := surya_textBlocks_mem n 0.80 "en" p.blocks.enum e he
      exact ⟨Or.inr (Or.inl hc), by simp [ht]⟩
    | ok imgs =>
      rw [hgi] at he
      simp only [List.mem_append] at he
      rcases he with he | he
      · obtain ⟨hc, ht⟩ := surya_textBlocks_mem n 0.80 "en" p.blocks.enum e he
        exact ⟨Or.inr (Or.inl hc), by simp [ht]⟩
      · obtain ⟨hc, ht⟩ := surya_images_mem n p.rect imgs.enum e he
        exact ⟨Or.inr (Or.inr (Or.inl hc)), by simp [ht]⟩

theorem surya_pages_mem (n : Nat) (pages : List Page) :
    ∀ e ∈ (SuryaPipeline.processPages n pages).1,
      (e.confidence = 0.75 ∨ e.confidence = 0.80 ∨ e.confidence = 0.85 ∨
          e.confidence = 0.50) ∧
        e.type ∈ (["text", "image"] : List String) := by
  induction pages generalizing n with
  | nil => intro e he; simp [SuryaPipeline.processPages] at he
  | cons p rest ih =>
    intro e he
    simp only [SuryaPipeline.processPages, List.mem_append] at he
    rcases he with he | he
    · exact surya_page_mem n p e he
    · exact ih (n + 1) e he

theorem mineru_processBlock_fields (pn idx : Nat) (b : Block) (el : Element)
    (frag : String) (h : MinerUPipeline.processBlock pn idx b = some (some el, frag)) :
    el.confidence = 0.88 ∧
      el.type ∈ (["equation", "citation", "header", "caption", "title", "text"] : List String) := by
  unfold MinerUPipeline.processBlock at h
  cases hb : b.lines with
  | none => rw [hb] at h; cases h
  | some lines =>
    rw [hb] at h
    by_cases hs : pyStrip (linesBlockText lines) = ""
    · simp only [if_pos hs] at h
      cases h
    · simp only [if_neg hs] at h
      cases hr : (if MinerUPipeline.classify_scientific_block (linesBlockText lines) b.bbox =
            "citation" then
          (MinerUPipeline.extract_references (linesBlockText lines)).map some
        else some none) with
      | none => rw [hr] at h; cases h
      | some r =>
        rw [hr] at h
        cases h
        exact ⟨rfl, classify_scientific_block_range _ _⟩

theorem mineru_blocks_mem (pn : Nat) (l : List (Nat × Block)) :
    ∀ els md, MinerUPipeline.processBlocks pn l = some (els, md) →
      ∀ e ∈ els, e.confidence = 0.88 ∧
        e.type ∈ (["equation", "citation", "header", "caption", "title", "text"] : List String) := by
  induction l with
  | nil =>
    intro els md h e he
    simp [MinerUPipeline.processBlocks] at h
    rw [h.1] at he
    simp at he
  | cons ib rest ih =>
    intro els md h e he
    obtain ⟨idx, b⟩ := ib
    unfold MinerUPipeline.processBlocks at h
    cases hpb : MinerUPipeline.processBlock pn idx b with
    | none => rw [hpb] at h; cases h
    | some p =>
      obtain ⟨optEl, frag⟩ := p
      rw [hpb] at h
      cases hpr : MinerUPipeline.processBlocks pn rest with
      | none => rw [hpr] at h; cases h
      | some q =>
        obtain ⟨els2, md2⟩ := q
        rw [hpr] at h
        cases h
        rcases List.mem_append.mp he with he | he
        · cases optEl with
          | none => simp at he
          | some el =>
            simp at he
            subst he
            exact mineru_processBlock_fields pn idx b e frag hpb
        · exact ih els2 md2 hpr e he

theorem mineru_tables_mem (pn : Nat) (l : List (Nat × PTable)) :
    ∀ e ∈ (MinerUPipeline.processTables pn l).1,
      e.confidence = 0.85 ∧ e.type = "table" := by
  induction l with
  | nil => intro e he; simp [MinerUPipeline.processTables] at he
  | cons it rest ih =>
    intro e he
    obtain ⟨idx, t⟩ := it
    unfold MinerUPipeline.processTables at he
    by_cases hc : t.cells ≠ []
    · simp only [if_pos hc] at he
      rcases List.mem_cons.mp he with he | he
      · subst he
        exact ⟨rfl, rfl⟩
      · exact ih e he
    · simp only [if_neg hc] at he
      exact ih e he

theorem mineru_page_mem (n : Nat) (p : Page) :
    ∀ els md, MinerUPipeline.processPage n p = some (els, md) →
      ∀ e ∈ els, (e.confidence = 0.88 ∨ e.confidence = 0.85) ∧
        e.type ∈ (["equation", "citation", "header", "caption", "title", "text", "table"] :
          List String) := by
  intro els md h e he
  unfold MinerUPipeline.processPage at h
  cases hpb : MinerUPipeline.processBlocks n p.blocks.enum with
  | none => rw [hpb] at h; cases h
  | some q =>
    obtain ⟨bels, bmd⟩ := q
    rw [hpb] at h
    cases hft : p.find_tables with
    | error u =>
      rw [hft] at h
      cases h
      obtain ⟨hc, ht⟩ := mineru_blocks_mem n p.blocks.enum _ _ hpb e he
      refine ⟨Or.inl hc, ?_⟩
      simp at ht ⊢
      tauto
    | ok tbls =>
      rw [hft] at h
      cases h
      rcases List.mem_append.mp he with he | he
      · obtain ⟨hc, ht⟩ := mineru_blocks_mem n p.blocks.enum _ _ hpb e he
        refine ⟨Or.inl hc, ?_⟩
        simp at ht ⊢
        tauto
      · obtain ⟨hc, ht⟩ := mineru_tables_mem n tbls.enum e he
        exact ⟨Or.inr hc, by simp [ht]⟩

theorem mineru_pages_mem (n : Nat) (pages : List Page) :
    ∀ els md, MinerUPipeline.processPages n pages = some (els, md) →
      ∀ e ∈ els, (e.confidence = 0.88 ∨ e.confidence = 0.85) ∧
        e.type ∈ (["equation", "citation", "header", "caption", "title", "text", "table"] :
          List String) := by
  induction pages generalizing n with
  | nil =>
    intro els md h e he
    simp [MinerUPipeline.processPages] at h
    rw [h.1] at he
    simp at he
  | cons p rest ih =>
    intro els md h e he
    unfold MinerUPipeline.processPages at h
    cases hpp : MinerUPipeline.processPage n p with
    | none => rw [hpp] at h; cases h
    | some q =>
      obtain ⟨els1, md1⟩ := q
      rw [hpp] at h
      cases hpr : MinerUPipeline.processPages (n + 1) rest with
      | none => rw [hpr] at h; cases h
      | some q2 =>
        obtain ⟨els2, md2⟩ := q2
        rw [hpr] at h
        cases h
        rcases List.mem_append.mp he with he | he
        · exact mineru_page_mem n p _ _ hpp e he
        · exact ih (n + 1) _ _ hpr e he

/-- C1: every `ExtractionResult` the three pipeline fallbacks return
satisfies the claim — each element's confidence lies in [0,1], the metadata
`confidence_avg` lies in [0,1], and an empty elements list comes with
`confidence_avg = 0`; no division by zero occurs.  (The success-path
metadata dict evaluates `len(doc)` after `doc.close()` and so raises
`ValueError('document closed')`; every returned result is therefore the
except-branch failure result, whose elements list is empty and whose
average is 0.)  The elements the page loops assemble before that raise —
the ones the success-path average would have summed — also all have
confidences within [0,1]. -/
theorem claim_C1_confidence_bounds (doc : Except String (List Page)) :
    ((∀ e ∈ (DoclingPipeline.fallback_extraction doc).elements,
        0 ≤ e.confidence ∧ e.confidence ≤ 1) ∧
      (0 ≤ (DoclingPipeline.fallback_extraction doc).metadata.confidence_avg ∧
        (DoclingPipeline.fallback_extraction doc).metadata.confidence_avg ≤ 1) ∧
      ((DoclingPipeline.fallback_extraction doc).elements = [] →
        (DoclingPipeline.fallback_extraction doc).metadata.confidence_avg = 0)) ∧
    ((∀ e ∈ (MinerUPipeline.scientific_fallback_extraction doc).elements,
        0 ≤ e.confidence ∧ e.confidence ≤ 1) ∧
      (0 ≤ (MinerUPipeline.scientific_fallback_extraction doc).metadata.confidence_avg ∧
        (MinerUPipeline.scientific_fallback_extraction doc).metadata.confidence_avg ≤ 1) ∧
      ((MinerUPipeline.scientific_fallback_extraction doc).elements = [] →
        (MinerUPipeline.scientific_fallback_extraction doc).metadata.confidence_avg = 0)) ∧
    ((∀ e ∈ (SuryaPipeline.fallback_extraction doc).elements,
        0 ≤ e.confidence ∧ e.confidence ≤ 1) ∧
      (0 ≤ (SuryaPipeline.fallback_extraction doc).metadata.confidence_avg ∧
        (SuryaPipeline.fallback_extraction doc).metadata.confidence_avg ≤ 1) ∧
      ((SuryaPipeline.fallback_extraction doc).elements = [] →
        (SuryaPipeline.fallback_extraction doc).metadata.confidence_avg = 0)) ∧
    (∀ pages, ∀ e ∈ (DoclingPipeline.processPages 0 pages).1,
      0 ≤ e.confidence ∧ e.confidence ≤ 1) ∧
    (∀ pages els md, MinerUPipeline.processPages 0 pages = some (els, md) →
      ∀ e ∈ els, 0 ≤ e.confidence ∧ e.confidence ≤ 1) ∧
    (∀ pages, ∀ e ∈ (SuryaPipeline.processPages 0 pages).1,
      0 ≤ e.confidence ∧ e.confidence ≤ 1) := by
  have hD : (DoclingPipeline.fallback_extraction doc).elements = [] ∧
      (DoclingPipeline.fallback_extraction doc).metadata.confidence_avg = 0 := by
    cases doc with
    | error msg => exact ⟨rfl, rfl⟩
    | ok pages => exact ⟨rfl, rfl⟩
  have hM : (MinerUPipeline.scientific_fallback_extraction doc).elements = [] ∧
      (MinerUPipeline.scientific_fallback_extraction doc).metadata.confidence_avg = 0 := by
    cases doc with
    | error msg => exact ⟨rfl, rfl⟩
    | ok pages =>
      cases hpp : MinerUPipeline.processPages 0 pages with
      | none =>
        have hres : MinerUPipeline.scientific_fallback_extraction (Except.ok pages) =
            emptyErrorResult "ValueError" := by
          simp only [MinerUPipeline.scientific_fallback_extraction]
          rw [hpp]
        rw [hres]
        exact ⟨rfl, rfl⟩
      | some q =>
        have hres : MinerUPipeline.scientific_fallback_extraction (Except.ok pages) =
            emptyErrorResult "document closed" := by
          simp only [MinerUPipeline.scientific_fallback_extraction]
          rw [hpp]
        rw [hres]
        exact ⟨rfl, rfl⟩
  have hS : (SuryaPipeline.fallback_extraction doc).elements = [] ∧
      (SuryaPipeline.fallback_extraction doc).metadata.confidence_avg = 0 := by
    cases doc with
    | error msg => exact ⟨rfl, rfl⟩
    | ok pages => exact ⟨rfl, rfl⟩
  refine ⟨⟨?_, ?_, ?_⟩, ⟨?_, ?_, ?_⟩, ⟨?_, ?_, ?_⟩, ?_, ?_, ?_⟩
  · intro e he
    rw [hD.1] at he
    simp at he
  · rw [hD.2]
    norm_num
  · intro _
    exact hD.2
  · intro e he
    rw [hM.1] at he
    simp at he
  · rw [hM.2]
    norm_num
  · intro _
    exact hM.2
  · intro e he
    rw [hS.1] at he
    simp at he
  · rw [hS.2]
    norm_num
  · intro _
    exact hS.2
  · intro pages e he
    rcases (docling_pages_mem 0 pages e he).1 with hc | hc <;> rw [hc] <;> norm_num
  · intro pages els md hpp e he
    rcases (mineru_pages_mem 0 pages els md hpp e he).1 with hc | hc <;>
      rw [hc] <;> norm_num
  · intro pages e he
    rcases (surya_pages_mem 0 pages e he).1 with hc | hc | hc | hc <;>
      rw [hc] <;> norm_num

/-- C1 witness: concrete discharges — the empty-elements implication at the
empty document for each pipeline, and the loop-level confidence bound at a
one-block document for each pipeline (the block classifies `header` at 0.85
in the docling loop, `text` at 0.88 in the mineru loop, and `text` at 0.80
in the surya regular branch). -/
theorem claim_C1_witness :
    (DoclingPipeline.fallback_extraction (Except.ok [])).metadata.confidence_avg = 0 ∧
      (MinerUPipeline.scientific_fallback_extraction
        (Except.ok [])).metadata.confidence_avg = 0 ∧
      (SuryaPipeline.fallback_extraction (Except.ok [])).metadata.confidence_avg = 0 ∧
      (0 ≤ ({ id := "page_0_block_0", type := "header",
              content := "Hello there world", bbox := ⟨0, 300, 100, 320, 0⟩,
              confidence := 0.85 } : Element).confidence ∧
        ({ id := "page_0_block_0", type := "header",
           content := "Hello there world", bbox := ⟨0, 300, 100, 320, 0⟩,
           confidence := 0.85 } : Element).confidence ≤ 1) ∧
      (0 ≤ ({ id := "page_0_block_0", type := "text",
              content := "Hello there world", bbox := ⟨0, 300, 100, 320, 0⟩,
              confidence := 0.88 } : Element).confidence ∧
        ({ id := "page_0_block_0", type := "text",
           content := "Hello there world", bbox := ⟨0, 300, 100, 320, 0⟩,
           confidence := 0.88 } : Element).confidence ≤ 1) ∧
      (0 ≤ ({ id := "page_0_block_0", type := "text",
              content := "Hello there world", bbox := ⟨0, 300, 100, 320, 0⟩,
              confidence := 0.80, language := some "en" } : Element).confidence ∧
        ({ id := "page_0_block_0", type := "text",
           content := "Hello there world", bbox := ⟨0, 300, 100, 320, 0⟩,
           confidence := 0.80, language := some "en" } : Element).confidence ≤ 1) :=
  ⟨(claim_C1_confidence_bounds (Except.ok [])).1.2.2 rfl,
    (claim_C1_confidence_bounds (Except.ok [])).2.1.2.2 rfl,
    (claim_C1_confidence_bounds (Except.ok [])).2.2.1.2.2 rfl,
    (claim_C1_confidence_bounds (Except.ok [])).2.2.2.1
      [⟨[⟨⟨0, 300, 100, 320⟩, some [⟨[⟨"Hello there world", 12⟩]⟩]⟩],
        Except.ok [], Except.ok [], ⟨612, 792⟩, ""⟩]
      { id := "page_0_block_0", type := "header",
        content := "Hello there world", bbox := ⟨0, 300, 100, 320, 0⟩,
        confidence := 0.85 } (List.mem_singleton.mpr rfl),
    (claim_C1_confidence_bounds (Except.ok [])).2.2.2.2.1
      [⟨[⟨⟨0, 300, 100, 320⟩, some [⟨[⟨"Hello there world", 12⟩]⟩]⟩],
        Except.ok [], Except.ok [], ⟨612, 792⟩, ""⟩] _ _ rfl
      { id := "page_0_block_0", type := "text",
        content := "Hello there world", bbox := ⟨0, 300, 100, 320, 0⟩,
        confidence := 0.88 } (List.mem_singleton.mpr rfl),
    (claim_C1_confidence_bounds (Except.ok [])).2.2.2.2.2
      [⟨[⟨⟨0, 300, 100, 320⟩, some [⟨[⟨"Hello there world", 12⟩]⟩]⟩],
        Except.ok [], Except.ok [], ⟨612, 792⟩,
        "Plenty of page text here so that the regular branch is chosen today"⟩]
      { id := "page_0_block_0", type := "text",
        content := "Hello there world", bbox := ⟨0, 300, 100, 320, 0⟩,
        confidence := 0.80, language := some "en" } (List.mem_singleton.mpr rfl)⟩

/-- C2 counterexample: an extraction that raises inside the unified app's
`_enhanced_pymupdf_extraction` does NOT return an empty well-formed
`success=false` result — the exception is converted to an
`HTTPException(500)` and propagates to the caller (embedded as
`Except.error`). -/
theorem claim_C2_counterexample :
    ModalAppUnified.enhanced_pymupdf_extraction (Except.error "boom") "docling" 0 =
      Except.error "Enhanced extraction failed: boom" := rfl

/-- C2 amended: each of the three pipeline classes answers an internal raise
with the empty-but-well-formed result — `markdown=""`, `elements=[]`,
zeroed metadata, `success=false`, the message in `error` — both for a raise
while opening/reading the document and (for MinerU) for a raise inside
reference extraction; the unified app's `_enhanced_pymupdf_extraction`,
however, propagates the failure to the caller as an `HTTPException`. -/
theorem claim_C2_error_result (msg : String) :
    DoclingPipeline.fallback_extraction (Except.error msg) = emptyErrorResult msg ∧
      MinerUPipeline.scientific_fallback_extraction (Except.error msg) = emptyErrorResult msg ∧
      SuryaPipeline.fallback_extraction (Except.error msg) = emptyErrorResult msg ∧
      (emptyErrorResult msg).markdown = "" ∧
      (emptyErrorResult msg).elements = [] ∧
      (emptyErrorResult msg).success = false ∧
      (emptyErrorResult msg).error = some msg ∧
      (emptyErrorResult msg).metadata =
        { total_pages := 0, total_elements := 0, by_type := [], confidence_avg := 0 } ∧
      (∀ pages, MinerUPipeline.processPages 0 pages = none →
        MinerUPipeline.scientific_fallback_extraction (Except.ok pages) =
          emptyErrorResult "ValueError") ∧
      (∀ model pt, ModalAppUnified.enhanced_pymupdf_extraction (Except.error msg) model pt =
        Except.error ("Enhanced extraction failed: " ++ msg)) := by
  refine ⟨rfl, rfl, rfl, rfl, rfl, rfl, rfl, rfl, ?_, fun model pt => rfl⟩
  intro pages h
  simp only [MinerUPipeline.scientific_fallback_extraction]
  rw [h]

/-- C2 witness: a concrete raising input for each conjunct with a
hypothesis; the page whose single block reads `"[-]"` classifies as a
citation and makes `_extract_references` raise `ValueError` (its bracket
part `"-"` splits into two empty integer strings). -/
theorem claim_C2_witness :
    DoclingPipeline.fallback_extraction (Except.error "boom") = emptyErrorResult "boom" ∧
      MinerUPipeline.processPages 0 [⟨[⟨⟨0, 0, 10, 10⟩, some [⟨[⟨"[-]", 12⟩]⟩]⟩],
        Except.ok [], Except.ok [], ⟨612, 792⟩, ""⟩] = none ∧
      MinerUPipeline.scientific_fallback_extraction
        (Except.ok [⟨[⟨⟨0, 0, 10, 10⟩, some [⟨[⟨"[-]", 12⟩]⟩]⟩],
          Except.ok [], Except.ok [], ⟨612, 792⟩, ""⟩]) = emptyErrorResult "ValueError" ∧
      ModalAppUnified.enhanced_pymupdf_extraction (Except.error "boom") "docling" 0 =
        Except.error "Enhanced extraction failed: boom" :=
  ⟨(claim_C2_error_result "boom").1,
    by decide,
    (claim_C2_error_result "boom").2.2.2.2.2.2.2.2.1
      [⟨[⟨⟨0, 0, 10, 10⟩, some [⟨[⟨"[-]", 12⟩]⟩]⟩],
        Except.ok [], Except.ok [], ⟨612, 792⟩, ""⟩] (by decide),
    (claim_C2_error_result "boom").2.2.2.2.2.2.2.2.2 "docling" 0⟩

/-- C3 amended: with two exceptions, every element type produced by the
embedded classifiers and pipelines is one of the eleven schema values
title/header/subheader/text/list/caption/table/image/equation/citation/
footer; the exceptions are the enhanced app's surya-style classifier, which
also returns `label` (for text shorter than 10 characters), and the
production app's table extractor, whose per-cell elements all carry the
twelfth type `table_cell`. -/
theorem claim_C3_element_types :
    (∀ text bbox, DoclingPipeline.classify_block text bbox ∈ elevenTypes) ∧
    (∀ text bbox, MinerUPipeline.classify_scientific_block text bbox ∈ elevenTypes) ∧
    (∀ fs bbox pr, ModalAppProduction.classify_element fs bbox pr ∈ elevenTypes) ∧
    (∀ text fs bbox,
      ModalAppEnhanced.classify_element_docling_style text fs bbox ∈ elevenTypes) ∧
    (∀ text bbox, ModalAppEnhanced.classify_element_scientific text bbox ∈ elevenTypes) ∧
    (∀ text bbox pr, ModalAppUnified.classify_docling_style text bbox pr ∈ elevenTypes) ∧
    (∀ text, ModalAppUnified.classify_scientific_style text ∈ elevenTypes) ∧
    (∀ doc, ∀ e ∈ (DoclingPipeline.fallback_extraction doc).elements,
      e.type ∈ elevenTypes) ∧
    (∀ doc, ∀ e ∈ (MinerUPipeline.scientific_fallback_extraction doc).elements,
      e.type ∈ elevenTypes) ∧
    (∀ doc, ∀ e ∈ (SuryaPipeline.fallback_extraction doc).elements,
      e.type ∈ elevenTypes) ∧
    (∀ text bbox,
      ModalAppEnhanced.classify_element_surya_style text bbox ∈ "label" :: elevenTypes) ∧
    (∀ pn tid rows, ∀ e ∈ ModalAppProduction.tableCellElements pn tid rows,
      e.type = "table_cell") := by
  refine ⟨?_, ?_, ?_, ?_, ?_, ?_, ?_, ?_, ?_, ?_, ?_, ?_⟩
  · intro text bbox
    have h := classify_block_range text bbox
    simp [elevenTypes]
    simp at h
    tauto
  · intro text bbox
    have h := classify_scientific_block_range text bbox
    simp [elevenTypes]
    simp at h
    tauto
  · intro fs bbox pr
    have h := classify_element_range fs bbox pr
    simp [elevenTypes]
    simp at h
    tauto
  · intro text fs bbox
    have h := classify_element_docling_style_range text fs bbox
    simp [elevenTypes]
    simp at h
    tauto
  · intro text bbox
    have h := classify_element_scientific_range text bbox
    simp [elevenTypes]
    simp at h
    tauto
  · intro text bbox pr
    have h := classify_docling_style_range text bbox pr
    simp [elevenTypes]
    simp at h
    tauto
  · intro text
    have h := classify_scientific_style_range text
    simp [elevenTypes]
    simp at h
    tauto
  · intro doc e he
    cases doc with
    | error msg =>
      simp [DoclingPipeline.fallback_extraction, emptyErrorResult] at he
    | ok pages =>
      simp [DoclingPipeline.fallback_extraction, emptyErrorResult] at he
  · intro doc e he
    cases doc with
    | error msg =>
      simp [MinerUPipeline.scientific_fallback_extraction, emptyErrorResult] at he
    | ok pages =>
      cases hpp : MinerUPipeline.processPages 0 pages with
      | none =>
        have hres : MinerUPipeline.scientific_fallback_extraction (Except.ok pages) =
            emptyErrorResult "ValueError" := by
          simp only [MinerUPipeline.scientific_fallback_extraction]
          rw [hpp]
        rw [hres] at he
        simp [emptyErrorResult] at he
      | some q =>
        have hres : MinerUPipeline.scientific_fallback_extraction (Except.ok pages) =
            emptyErrorResult "document closed" := by
          simp only [MinerUPipeline.scientific_fallback_extraction]
          rw [hpp]
        rw [hres] at he
        simp [emptyErrorResult] at he
  · intro doc e he
    cases doc with
    | error msg =>
      simp [SuryaPipeline.fallback_extraction, emptyErrorResult] at he
    | ok pages =>
      simp [SuryaPipeline.fallback_extraction, emptyErrorResult] at he
  · intro text bbox
    have h := classify_element_surya_style_range text bbox
    simp [elevenTypes]
    simp at h
    tauto
  · intro pn tid rows e he
    simp only [ModalAppProduction.tableCellElements, List.mem_flatMap] at he
    obtain ⟨rc, _, he⟩ := he
    simp only [List.mem_filterMap] at he
    obtain ⟨cc, _, he⟩ := he
    cases hc : cc.2 with
    | none => rw [hc] at he; cases he
    | some cell =>
      rw [hc] at he
      cases he
      rfl

/-- C3 counterexample: the surya-style classifier returns `label` — not one
of the eleven claimed values — and the production table extractor emits
`table_cell` elements. -/
theorem claim_C3_counterexample :
    ModalAppEnhanced.classify_element_surya_style "short" ⟨0, 0, 100, 100⟩ = "label" ∧
      ("label" ∉ elevenTypes) ∧
      (ModalAppProduction.tableCellElements 0 0 [[some "x"]]).map (fun e => e.type) =
        ["table_cell"] ∧
      ("table_cell" ∉ elevenTypes) := by
  refine ⟨by decide, by decide, by decide, by decide⟩

/-- C3 witness: the production table extractor's cell element of a concrete
one-cell grid carries the type `table_cell`, and a concrete surya-style
classification stays in the widened range. -/
theorem claim_C3_witness :
    ({ type := "table_cell", content := "x", bbox := [0, 0, 0, 0], page := 0,
        confidence := 0.9, table_id := 0, row := 0, column := 0 } :
      ModalAppProduction.TableCellElement).type = "table_cell" ∧
      ModalAppEnhanced.classify_element_surya_style "short" ⟨0, 0, 100, 100⟩ ∈
        "label" :: elevenTypes :=
  ⟨claim_C3_element_types.2.2.2.2.2.2.2.2.2.2.2 0 0 [[some "x"]]
      { type := "table_cell", content := "x", bbox := [0, 0, 0, 0], page := 0,
        confidence := 0.9, table_id := 0, row := 0, column := 0 }
      (List.mem_singleton.mpr rfl),
    claim_C3_element_types.2.2.2.2.2.2.2.2.2.2.1 "short" ⟨0, 0, 100, 100⟩⟩

/-- C4 witness: concrete instantiations discharging each hypothesis of the
amended font-size precedence theorem. -/
theorem claim_C4_witness :
    ModalAppProduction.classify_element 22 ⟨0, 500, 100, 520⟩ ⟨612, 792⟩ = "title" ∧
    ModalAppProduction.classify_element 18 ⟨0, 500, 100, 520⟩ ⟨612, 792⟩ = "header" ∧
    ModalAppProduction.classify_element 15 ⟨0, 500, 100, 520⟩ ⟨612, 792⟩ = "subheader" ∧
    ModalAppEnhanced.classify_element_docling_style "Short title" 22 ⟨0, 500, 100, 520⟩ = "title" ∧
    ModalAppEnhanced.classify_element_docling_style
      (String.mk (List.replicate 100 'a')) 22 ⟨0, 500, 100, 520⟩ = "header" :=
  ⟨(claim_C4_font_size_rules 22 ⟨0, 500, 100, 520⟩ ⟨612, 792⟩ "").1 (by norm_num),
    (claim_C4_font_size_rules 18 ⟨0, 500, 100, 520⟩ ⟨612, 792⟩ "").2.1 (by norm_num) (by norm_num),
    (claim_C4_font_size_rules 15 ⟨0, 500, 100, 520⟩ ⟨612, 792⟩ "").2.2.1 (by norm_num) (by norm_num),
    (claim_C4_font_size_rules 22 ⟨0, 500, 100, 520⟩ ⟨612, 792⟩ "Short title").2.2.2.1
      (by norm_num) (by decide),
    (claim_C4_font_size_rules 22 ⟨0, 500, 100, 520⟩ ⟨612, 792⟩
        (String.mk (List.replicate 100 'a'))).2.2.2.2.1 (by norm_num) (by decide)⟩

end PdfExtract
